import Mathlib

/-!
Shallow embedding of the chat-server backend (huyNd1507/chat-server).

Source files embedded:
 * `src/routers/message.routes.ts` — the `ChatSocket` class: connection
   registry (`connectedUsers` map), `handleConnection`, `handleDisconnect`,
   `handleSendMessage`, `handleMessageRead`.
 * `src/controllers/message.controller.ts` (src/unnamed/part_001) —
   `MessageController`: `sendMessage`, `markAsRead`, `markMultipleAsRead`,
   `deleteMessage`.
 * `src/controllers/conversation.controller.ts` —
   `ConversationController`: `createConversation`, `addParticipants`,
   `removeParticipants`, `leaveConversation`.

The MongoDB store is modelled as lists of documents; identifiers and
timestamps are natural numbers.  Mongo update operators are modelled
faithfully: `$addToSet` appends when the element is absent, a positional
`$` update rewrites the first matching array element, an `arrayFilters`
update rewrites every matching array element.
-/

namespace ChatServer

abbrev UserId := Nat
abbrev MsgId := Nat
abbrev ConvId := Nat
abbrev Time := Nat

/-- One entry of a message's `readBy` array: `{ user, readAt }`. -/
structure ReadEntry where
  user : UserId
  readAt : Time
deriving DecidableEq

/-- The type-tagged message content payload built by the send paths.
Each optional field models one populated key of the JS object
(`text` / `media` / `location` / `contact` / `call` / `poll`);
the payload value itself is opaque and modelled as a `Nat`. -/
structure MsgContent where
  text : Option Nat := none
  media : Option Nat := none
  location : Option Nat := none
  contact : Option Nat := none
  call : Option Nat := none
  poll : Option Nat := none
deriving DecidableEq

/-- The raw `content` value a client submits with a send request.
`val` stands for the whole value; `mediaField` stands for its `.media`
sub-field (the socket handler reads `content.media` for media types). -/
structure RawContent where
  val : Nat
  mediaField : Nat
deriving DecidableEq

/-- A persisted message document (message.models). -/
structure Msg where
  id : MsgId
  conversation : ConvId
  sender : UserId
  mtype : String
  content : MsgContent
  readBy : List ReadEntry
  isDeleted : Bool
  deletedBy : Option UserId
  deletedAt : Option Time
  createdAt : Time
deriving DecidableEq

/-- One entry of a conversation's `participants` array. -/
structure Participant where
  user : UserId
  role : String
  lastReadMessage : Option MsgId := none
deriving DecidableEq

/-- One entry of a conversation's `unreadCount` array. -/
structure UnreadEntry where
  user : UserId
  count : Nat
deriving DecidableEq

/-- One entry of a conversation's `admins` array. -/
structure AdminEntry where
  user : UserId
deriving DecidableEq

/-- A persisted conversation document (conversation.models). -/
structure Conv where
  id : ConvId
  ctype : String
  name : Option String
  participants : List Participant
  admins : List AdminEntry
  unreadCount : List UnreadEntry
  lastMessage : Option MsgId
  isDeleted : Bool
deriving DecidableEq

/-- The persisted store: user ids, message documents, conversation documents. -/
structure DB where
  users : List UserId
  messages : List Msg
  conversations : List Conv
deriving DecidableEq

/-! ### Store access helpers (Mongo query/update semantics) -/

/-- `Message.findById(id)`. -/
def findMsg (db : DB) (mid : MsgId) : Option Msg :=
  db.messages.find? (fun m => m.id = mid)

/-- `Conversation.findById(id)`. -/
def findConv (db : DB) (cid : ConvId) : Option Conv :=
  db.conversations.find? (fun c => c.id = cid)

/-- `Conversation.findOne({_id: cid, "participants.user": uid})`. -/
def findConvWithParticipant (db : DB) (cid : ConvId) (uid : UserId) : Option Conv :=
  db.conversations.find? (fun c => c.id = cid && c.participants.any (fun p => p.user = uid))

/-- `Conversation.findOne({_id: cid, "participants.user": uid, isDeleted: false})`. -/
def findActiveConvWithParticipant (db : DB) (cid : ConvId) (uid : UserId) : Option Conv :=
  db.conversations.find?
    (fun c => c.id = cid && c.participants.any (fun p => p.user = uid) && !c.isDeleted)

/-- Rewrite the message with id `mid` (no-op on every other document). -/
def updateMsg (db : DB) (mid : MsgId) (f : Msg → Msg) : DB :=
  { db with messages := db.messages.map (fun m => if m.id = mid then f m else m) }

/-- Rewrite the conversation with id `cid` (no-op on every other document). -/
def updateConv (db : DB) (cid : ConvId) (f : Conv → Conv) : DB :=
  { db with conversations := db.conversations.map (fun c => if c.id = cid then f c else c) }

/-- Mongo `$addToSet` on a `readBy` array: append unless already present. -/
def addToSet (l : List ReadEntry) (e : ReadEntry) : List ReadEntry :=
  if e ∈ l then l else l ++ [e]

/-- Whether `uid` occurs in a `readBy` array (`readBy.some(r => r.user === uid)`). -/
def readByUser (l : List ReadEntry) (uid : UserId) : Bool :=
  l.any (fun r => r.user = uid)

/-- `arrayFilters` update: rewrite every `unreadCount` entry matching `p`. -/
def updateUnreadAll (l : List UnreadEntry) (p : UnreadEntry → Bool)
    (f : UnreadEntry → UnreadEntry) : List UnreadEntry :=
  l.map (fun e => if p e then f e else e)

/-- Positional `$` update: rewrite the first `unreadCount` entry of `uid`. -/
def setFirstUnreadZero : List UnreadEntry → UserId → List UnreadEntry
  | [], _ => []
  | e :: rest, uid =>
      if e.user = uid then { e with count := 0 } :: rest
      else e :: setFirstUnreadZero rest uid

/-- Positional `$` update: rewrite the first participant entry of `uid`. -/
def setFirstLastRead : List Participant → UserId → MsgId → List Participant
  | [], _, _ => []
  | p :: rest, uid, mid =>
      if p.user = uid then { p with lastReadMessage := some mid } :: rest
      else p :: setFirstLastRead rest uid mid

/-- `findOne().sort({createdAt: -1})`: a document of maximal `createdAt`
(the earliest such document on ties). -/
def latestIn (msgs : List Msg) : Option Msg :=
  msgs.foldl
    (fun acc m =>
      match acc with
      | none => some m
      | some b => if m.createdAt > b.createdAt then some m else some b)
    none

/-! ### Connection Registry (`ChatSocket.connectedUsers`) -/

/-- The value type of the `connectedUsers` map: `{ userId, socketId }`. -/
structure ConnectedUser where
  userId : UserId
  socketId : Nat
deriving DecidableEq

/-- A live transport session: `socket.id` plus `socket.data.userId`
(set by the handshake middleware). -/
structure Sock where
  id : Nat
  userId : UserId
deriving DecidableEq

/-- `connectedUsers : Map<string, ConnectedUser>`, keyed by user id,
modelled as an association list with at most one binding per key. -/
abbrev Registry := List (UserId × ConnectedUser)

/-- `Map.get(k)`. -/
def regGet (r : Registry) (k : UserId) : Option ConnectedUser :=
  (r.find? (fun kv => kv.1 = k)).map (fun kv => kv.2)

/-- `Map.set(k, v)`: overwrite the binding of `k`, or add one. -/
def regSet (r : Registry) (k : UserId) (v : ConnectedUser) : Registry :=
  if r.any (fun kv => kv.1 = k) then
    r.map (fun kv => if kv.1 = k then (k, v) else kv)
  else r ++ [(k, v)]

/-- `Map.delete(k)`. -/
def regDelete (r : Registry) (k : UserId) : Registry :=
  r.filter (fun kv => kv.1 ≠ k)

/-- `handleConnection`, restricted to its registry effect:
`connectedUsers.set(userId, { userId, socketId: socket.id })`. -/
def handleConnectionReg (r : Registry) (s : Sock) : Registry :=
  regSet r s.userId ⟨s.userId, s.id⟩

/-- `handleDisconnect`, restricted to its registry effect:
`connectedUsers.delete(userId)` where `userId = socket.data.userId`. -/
def handleDisconnectReg (r : Registry) (s : Sock) : Registry :=
  regDelete r s.userId

/-- An identity is online when the fan-out lookup
`connectedUsers.get(participantId)` yields a session. -/
def isOnline (r : Registry) (u : UserId) : Bool :=
  (regGet r u).isSome

/-! ### Socket message handlers (`ChatSocket`) -/

/-- Result of a socket event handler: either an `error` event payload
was emitted to the acting socket, or the handler finished silently. -/
inductive SockRes where
  | ok : SockRes
  | error : String → SockRes
deriving DecidableEq

/-- Content construction in `ChatSocket.handleSendMessage`
(message.routes.ts, the `if (type === ...)` chain; note the media branch
reads `content.media`, every other branch reads `content` itself). -/
def formatContentSocket (mtype : String) (content : RawContent) : MsgContent :=
  if mtype = "text" then { text := some content.val }
  else if mtype = "file" ∨ mtype = "image" ∨ mtype = "video" then
    { media := some content.mediaField }
  else if mtype = "location" then { location := some content.val }
  else if mtype = "poll" then { poll := some content.val }
  else if mtype = "contact" then { contact := some content.val }
  else if mtype = "call" then { call := some content.val }
  else {}

/-- `ChatSocket.handleSendMessage`: build the payload, persist the message
with `readBy: []`, `$addToSet` the sender into `readBy`, then
`findByIdAndUpdate` the conversation setting `lastMessage` and
`$inc`-ing every `unreadCount` entry whose user differs from the sender
(`arrayFilters: [{ "elem.user": { $ne: userId } }]`).  `newId`/`now` stand
for the generated object id and the wall clock. -/
def handleSendMessage (db : DB) (userId : UserId) (conversationId : ConvId)
    (content : RawContent) (mtype : String) (newId : MsgId) (now : Time) : DB :=
  let msg : Msg :=
    { id := newId, conversation := conversationId, sender := userId,
      mtype := mtype, content := formatContentSocket mtype content,
      readBy := [], isDeleted := false, deletedBy := none, deletedAt := none,
      createdAt := now }
  let db1 : DB := { db with messages := db.messages ++ [msg] }
  let db2 := updateMsg db1 newId
    (fun m => { m with readBy := addToSet m.readBy ⟨userId, now⟩ })
  updateConv db2 conversationId
    (fun c =>
      { c with
        lastMessage := some newId,
        unreadCount := updateUnreadAll c.unreadCount (fun e => e.user ≠ userId)
          (fun e => { e with count := e.count + 1 }) })

/-- `ChatSocket.handleMessageRead`: look the message up; missing → `error`
event, no mutation; already read by the caller → silent return, no
mutation; otherwise `$addToSet` the caller into `readBy` and zero every
`unreadCount` entry of the caller in the conversation
(`arrayFilters: [{ "elem.user": userId }]`).  No participant check. -/
def handleMessageRead (db : DB) (userId : UserId) (conversationId : ConvId)
    (messageId : MsgId) (now : Time) : SockRes × DB :=
  match findMsg db messageId with
  | none => (.error "Message not found", db)
  | some m =>
    if readByUser m.readBy userId then (.ok, db)
    else
      let db1 := updateMsg db messageId
        (fun mm => { mm with readBy := addToSet mm.readBy ⟨userId, now⟩ })
      let db2 := updateConv db1 conversationId
        (fun c =>
          { c with
            unreadCount := updateUnreadAll c.unreadCount (fun e => e.user = userId)
              (fun e => { e with count := 0 }) })
      (.ok, db2)

/-! ### REST message controller (`MessageController`) -/

/-- Content construction in `MessageController.sendMessage`
(the `if (type === ...)` chain; every branch, media included, stores the
raw `content` value itself). -/
def formatContentRest (mtype : String) (content : RawContent) : MsgContent :=
  if mtype = "text" then { text := some content.val }
  else if mtype = "image" ∨ mtype = "video" ∨ mtype = "file" then
    { media := some content.val }
  else if mtype = "location" then { location := some content.val }
  else if mtype = "contact" then { contact := some content.val }
  else if mtype = "call" then { call := some content.val }
  else if mtype = "poll" then { poll := some content.val }
  else {}

/-- `MessageController.sendMessage`: require the caller to be a participant
(`findOne({_id, "participants.user": senderId})`, else 404), persist the
message (no `readBy` is written: the schema default `[]` stands), then set
`conversation.lastMessage` and save.  No unread counters are touched and
the sender is not added to `readBy`.  Returns the HTTP status. -/
def sendMessage (db : DB) (userId : UserId) (conversationId : ConvId)
    (content : RawContent) (mtype : String) (newId : MsgId) (now : Time) : Nat × DB :=
  match findConvWithParticipant db conversationId userId with
  | none => (404, db)
  | some _ =>
    let msg : Msg :=
      { id := newId, conversation := conversationId, sender := userId,
        mtype := mtype, content := formatContentRest mtype content,
        readBy := [], isDeleted := false, deletedBy := none, deletedAt := none,
        createdAt := now }
    let db1 : DB := { db with messages := db.messages ++ [msg] }
    let db2 := updateConv db1 conversationId (fun c => { c with lastMessage := some newId })
    (201, db2)

/-- `MessageController.markAsRead`: missing message → 404; caller already
in `readBy` → 400 `"You have already read this message"`; otherwise
`$addToSet` the caller into `readBy` → 200.  No participant check, and no
conversation document (unread counter, watermark) is touched. -/
def markAsRead (db : DB) (userId : UserId) (messageId : MsgId) (now : Time) : Nat × DB :=
  match findMsg db messageId with
  | none => (404, db)
  | some m =>
    if readByUser m.readBy userId then (400, db)
    else
      (200, updateMsg db messageId
        (fun mm => { mm with readBy := addToSet mm.readBy ⟨userId, now⟩ }))

/-- The per-document `$addToSet` update of the batch `bulkWrite` in
`markMultipleAsRead`: messages whose id is among the restricted subset get
the caller appended to `readBy`. -/
def bulkAddRead (userId : UserId) (now : Time) (ids : List MsgId) (m : Msg) : Msg :=
  if m.id ∈ ids then { m with readBy := addToSet m.readBy ⟨userId, now⟩ } else m

/-- The `updateOne({_id, "participants.user"}, {$set: {"participants.$.lastReadMessage"}})`
step of `markMultipleAsRead`: on the conversation matching the query,
rewrite the first participant entry of the user. -/
def setWatermark (conversationId : ConvId) (userId : UserId) (mid : MsgId)
    (c : Conv) : Conv :=
  if c.id = conversationId && c.participants.any (fun p => p.user = userId) then
    { c with participants := setFirstLastRead c.participants userId mid }
  else c

/-- The `updateOne({_id, "unreadCount.user"}, {$set: {"unreadCount.$.count": 0}})`
step of `markMultipleAsRead`: on the conversation matching the query,
zero the first unread entry of the user. -/
def resetUnread (conversationId : ConvId) (userId : UserId) (c : Conv) : Conv :=
  if c.id = conversationId && c.unreadCount.any (fun e => e.user = userId) then
    { c with unreadCount := setFirstUnreadZero c.unreadCount userId }
  else c

/-- `MessageController.markMultipleAsRead`: empty id list → 400;
caller not a participant → 404 (`findOne({_id, "participants.user"})`);
restrict to messages with id in the list, in the conversation, and not
already read (`"readBy.user": { $ne: userId }`); empty subset →
200 with `updatedMessageIds: []` and no mutation; otherwise bulk
`$addToSet` the caller into each `readBy`, set the caller's (first)
participant entry's `lastReadMessage` to the max-`createdAt` marked
message, and zero the caller's (first) `unreadCount` entry.
Returns `(status, updatedMessageIds, store)`. -/
def markMultipleAsRead (db : DB) (userId : UserId) (messageIds : List MsgId)
    (conversationId : ConvId) (now : Time) : Nat × List MsgId × DB :=
  if messageIds.isEmpty then (400, [], db)
  else
    match findConvWithParticipant db conversationId userId with
    | none => (404, [], db)
    | some _ =>
      let msgs := db.messages.filter
        (fun m => m.id ∈ messageIds && m.conversation = conversationId &&
          !readByUser m.readBy userId)
      if msgs.isEmpty then (200, [], db)
      else
        let ids := msgs.map (fun m => m.id)
        let db1 : DB := { db with messages := db.messages.map (bulkAddRead userId now ids) }
        let db2 :=
          match latestIn (db1.messages.filter (fun m => m.id ∈ ids)) with
          | none => db1
          | some latest =>
            { db1 with conversations :=
                db1.conversations.map (setWatermark conversationId userId latest.id) }
        let db3 : DB :=
          { db2 with conversations :=
              db2.conversations.map (resetUnread conversationId userId) }
        (200, ids, db3)

/-- `MessageController.deleteMessage`: missing message → 404; caller is not
the sender → 403; otherwise soft-delete (set `isDeleted`, `deletedAt`,
`deletedBy`) and, only when the owning conversation's `lastMessage` is this
very message, recompute `lastMessage` as the max-`createdAt` non-deleted
message still in the conversation (or clear it when none remains). -/
def deleteMessage (db : DB) (userId : UserId) (messageId : MsgId) (now : Time) : Nat × DB :=
  match findMsg db messageId with
  | none => (404, db)
  | some m =>
    if m.sender ≠ userId then (403, db)
    else
      let db1 := updateMsg db messageId
        (fun mm => { mm with isDeleted := true, deletedAt := some now,
                             deletedBy := some userId })
      match findConv db1 m.conversation with
      | none => (200, db1)
      | some conv =>
        if conv.lastMessage = some messageId then
          let latest := latestIn (db1.messages.filter
            (fun mm => mm.conversation = m.conversation && !mm.isDeleted))
          (200, updateConv db1 m.conversation
            (fun c => { c with lastMessage := latest.map (fun mm => mm.id) }))
        else (200, db1)

/-! ### Conversation controller (`ConversationController`) -/

/-- The request body of `createConversation`
(`{ type, participants, name, ... }`; description/avatar are irrelevant
to the persisted invariants modelled here and omitted). -/
structure CreateReq where
  ctype : String
  participants : List UserId
  name : Option String
deriving DecidableEq

/-- `ConversationController.createConversation`: invalid type → 400;
non-direct without a name → 400; `direct` with `participants.length !== 1`
→ 400; non-existing participant → 400; otherwise persist a conversation
whose participants are the creator with role `owner` followed by the
requested users with role `member`, with `admins` containing the creator
for non-direct types and empty for `direct`. -/
def createConversation (db : DB) (creatorId : UserId) (req : CreateReq)
    (newId : ConvId) : Nat × DB :=
  if !(["direct", "group", "channel", "broadcast"].contains req.ctype) then (400, db)
  else if req.ctype ≠ "direct" ∧ req.name = none then (400, db)
  else if req.ctype = "direct" ∧ req.participants.length ≠ 1 then (400, db)
  else if (db.users.filter (fun u => u ∈ req.participants)).length ≠
      req.participants.length then (400, db)
  else
    let parts : List Participant :=
      ⟨creatorId, "owner", none⟩ ::
        req.participants.map (fun u => ⟨u, "member", none⟩)
    let conv : Conv :=
      { id := newId, ctype := req.ctype, name := req.name,
        participants := parts,
        admins := if req.ctype ≠ "direct" then [⟨creatorId⟩] else [],
        unreadCount := [], lastMessage := none, isDeleted := false }
    (201, { db with conversations := db.conversations ++ [conv] })

/-- `ConversationController.addParticipants`: conversation not found (with
the caller as participant, not deleted) → 404; `direct` → 400; caller not
`admin`/`owner` → 403; a listed user missing → 400; a listed user already
participating → 400; otherwise push the users as `member`s. -/
def addParticipants (db : DB) (userId : UserId) (conversationId : ConvId)
    (newUsers : List UserId) : Nat × DB :=
  match findActiveConvWithParticipant db conversationId userId with
  | none => (404, db)
  | some conv =>
    if conv.ctype = "direct" then (400, db)
    else
      match conv.participants.find? (fun p => p.user = userId) with
      | none => (403, db)
      | some cp =>
        if !(["admin", "owner"].contains cp.role) then (403, db)
        else if (db.users.filter (fun u => u ∈ newUsers)).length ≠
            newUsers.length then (400, db)
        else if conv.participants.any (fun p => newUsers.contains p.user) then (400, db)
        else
          (200, updateConv db conversationId
            (fun c => { c with participants :=
              c.participants ++ newUsers.map (fun u => ⟨u, "member", none⟩) }))

/-- `ConversationController.removeParticipants`: conversation not found →
404; `direct` → 400; caller not `admin`/`owner` → 403; a targeted user
holding role `owner` → 400 (`"Cannot remove the owner from conversation"`),
nothing mutated; otherwise filter the targeted users out of both
`participants` and `admins`. -/
def removeParticipants (db : DB) (userId : UserId) (conversationId : ConvId)
    (targets : List UserId) : Nat × DB :=
  match findActiveConvWithParticipant db conversationId userId with
  | none => (404, db)
  | some conv =>
    if conv.ctype = "direct" then (400, db)
    else
      match conv.participants.find? (fun p => p.user = userId) with
      | none => (403, db)
      | some cp =>
        if !(["admin", "owner"].contains cp.role) then (403, db)
        else if conv.participants.any
            (fun p => p.role = "owner" && targets.contains p.user) then (400, db)
        else
          (200, updateConv db conversationId
            (fun c =>
              { c with
                participants := c.participants.filter
                  (fun p => !targets.contains p.user),
                admins := c.admins.filter (fun a => !targets.contains a.user) }))

/-- `ConversationController.leaveConversation`: conversation not found →
404; `direct` → 400; the caller's participant entry has role `owner` →
400 (`"Owner cannot leave the conversation..."`), nothing mutated;
otherwise filter the caller out of `participants` and `admins`. -/
def leaveConversation (db : DB) (userId : UserId) (conversationId : ConvId) : Nat × DB :=
  match findActiveConvWithParticipant db conversationId userId with
  | none => (404, db)
  | some conv =>
    if conv.ctype = "direct" then (400, db)
    else if (conv.participants.find? (fun p => p.user = userId)).any
        (fun p => p.role = "owner") then (400, db)
    else
      (200, updateConv db conversationId
        (fun c =>
          { c with
            participants := c.participants.filter (fun p => p.user ≠ userId),
            admins := c.admins.filter (fun a => a.user ≠ userId) }))

/-! ### General lemmas about the store helpers -/

section Lemmas

variable {α : Type}

/-- `find?` by a key commutes with a key-preserving rewrite of every document. -/
theorem find?_map_keyed (key : α → Nat) (t : Nat) (g : α → α)
    (hg : ∀ a, key (g a) = key a) :
    ∀ l : List α,
      (l.map g).find? (fun a => key a = t) = (l.find? (fun a => key a = t)).map g := by
  intro l
  induction l with
  | nil => rfl
  | cons a l ih =>
    by_cases h : key a = t
    · simp [List.find?_cons, hg, h]
    · simp [List.find?_cons, hg, h, ih]

/-- In a list with pairwise-distinct keys, `find?` by a member's key
returns that member. -/
theorem nodup_find?_self (key : α → Nat) {l : List α}
    (hn : (l.map key).Nodup) {m : α} (hm : m ∈ l) :
    l.find? (fun a => key a = key m) = some m := by
  induction l with
  | nil => cases hm
  | cons a l ih =>
    rw [List.map_cons, List.nodup_cons] at hn
    rcases List.mem_cons.mp hm with rfl | hm2
    · simp [List.find?_cons]
    · by_cases h : key a = key m
      · exact absurd (h ▸ List.mem_map_of_mem key hm2) hn.1
      · rw [List.find?_cons]
        simp only [decide_eq_false h]
        exact ih hn.2 hm2

/-- Members of a list with pairwise-distinct keys are determined by their key. -/
theorem nodup_key_inj (key : α → Nat) {l : List α}
    (hn : (l.map key).Nodup) {m m' : α} (hm : m ∈ l) (hm' : m' ∈ l)
    (h : key m = key m') : m = m' :=
  List.inj_on_of_nodup_map hn hm hm' h

/-- `latestIn` returns an element of its argument. -/
theorem latestIn_mem : ∀ {msgs : List Msg} {m : Msg},
    latestIn msgs = some m → m ∈ msgs := by
  have key : ∀ (l : List Msg) (acc : Option Msg) (m : Msg),
      l.foldl
        (fun acc mm =>
          match acc with
          | none => some mm
          | some b => if mm.createdAt > b.createdAt then some mm else some b)
        acc = some m → m ∈ l ∨ acc = some m := by
    intro l
    induction l with
    | nil => intro acc m h; exact Or.inr h
    | cons a l ih =>
      intro acc m h
      rcases ih _ m h with h2 | h2
      · exact Or.inl (List.mem_cons_of_mem a h2)
      · match acc with
        | none =>
          simp only at h2
          have h3 := Option.some_injective _ h2
          exact Or.inl (by rw [← h3]; exact List.mem_cons_self a l)
        | some b =>
          simp only at h2
          split at h2
          · have h3 := Option.some_injective _ h2
            exact Or.inl (by rw [← h3]; exact List.mem_cons_self a l)
          · exact Or.inr h2
  intro msgs m h
  rcases key msgs none m h with h2 | h2
  · exact h2
  · cases h2

/-- `latestIn` returns a document of maximal `createdAt`. -/
theorem latestIn_maximal : ∀ {msgs : List Msg} {m : Msg},
    latestIn msgs = some m → ∀ m' ∈ msgs, m'.createdAt ≤ m.createdAt := by
  have key : ∀ (l : List Msg) (acc : Option Msg) (m : Msg),
      l.foldl
        (fun acc mm =>
          match acc with
          | none => some mm
          | some b => if mm.createdAt > b.createdAt then some mm else some b)
        acc = some m →
      (∀ m' ∈ l, m'.createdAt ≤ m.createdAt) ∧
        (∀ b, acc = some b → b.createdAt ≤ m.createdAt) := by
    intro l
    induction l with
    | nil =>
      intro acc m h
      refine ⟨by simp, ?_⟩
      intro b hb
      rw [List.foldl_nil] at h
      rw [hb] at h
      exact le_of_eq (congrArg Msg.createdAt (Option.some_injective _ h))
    | cons a l ih =>
      intro acc m h
      rw [List.foldl_cons] at h
      rcases ih _ m h with ⟨h1, h2⟩
      constructor
      · intro m' hm'
        rcases List.mem_cons.mp hm' with rfl | hm2
        · match acc with
          | none => exact h2 m' rfl
          | some b =>
            simp only at h2
            by_cases hgt : m'.createdAt > b.createdAt
            · exact h2 _ (by simp [hgt])
            · exact le_trans (le_of_not_lt hgt) (h2 b (by simp [hgt]))
        · exact h1 m' hm2
      · intro b hb
        match acc, hb with
        | some b, rfl =>
          simp only at h2
          by_cases hgt : a.createdAt > b.createdAt
          · exact le_trans (le_of_lt hgt) (h2 _ (by simp [hgt]))
          · exact h2 b (by simp [hgt])
  intro msgs m h
  exact (key msgs none m h).1

/-- `latestIn` fails exactly on the empty list. -/
theorem latestIn_eq_none_iff {msgs : List Msg} : latestIn msgs = none ↔ msgs = [] := by
  constructor
  · intro h
    cases msgs with
    | nil => rfl
    | cons a l =>
      exfalso
      have key : ∀ (l : List Msg) (b : Msg),
          l.foldl
            (fun acc mm =>
              match acc with
              | none => some mm
              | some b => if mm.createdAt > b.createdAt then some mm else some b)
            (some b) ≠ none := by
        intro l
        induction l with
        | nil => intro b hb; cases hb
        | cons a l ih =>
          intro b
          simp only [List.foldl_cons]
          split
          · exact ih a
          · exact ih b
      exact key l a h
  · intro h; rw [h]; rfl

/-- `latestIn` commutes with a `createdAt`-preserving rewrite. -/
theorem latestIn_map (g : Msg → Msg) (hg : ∀ m, (g m).createdAt = m.createdAt) :
    ∀ msgs : List Msg, latestIn (msgs.map g) = (latestIn msgs).map g := by
  intro msgs
  suffices h : ∀ (acc : Option Msg),
      (msgs.map g).foldl
        (fun acc mm =>
          match acc with
          | none => some mm
          | some b => if mm.createdAt > b.createdAt then some mm else some b)
        (acc.map g) =
      (msgs.foldl
        (fun acc mm =>
          match acc with
          | none => some mm
          | some b => if mm.createdAt > b.createdAt then some mm else some b)
        acc).map g by
    exact h none
  induction msgs with
  | nil => intro acc; rfl
  | cons a l ih =>
    intro acc
    rw [List.map_cons, List.foldl_cons, List.foldl_cons]
    match acc with
    | none => exact ih (some a)
    | some b =>
      simp only [Option.map_some', hg]
      by_cases hgt : a.createdAt > b.createdAt
      · rw [if_pos hgt, if_pos hgt]; exact ih (some a)
      · rw [if_neg hgt, if_neg hgt]; exact ih (some b)

/-- Appending to `readBy` via `$addToSet` when the user is absent. -/
theorem addToSet_of_not_read {l : List ReadEntry} {u : UserId} (t : Time)
    (h : readByUser l u = false) : addToSet l ⟨u, t⟩ = l ++ [⟨u, t⟩] := by
  rw [addToSet, if_neg]
  intro hmem
  rw [readByUser, List.any_eq_false] at h
  exact h _ hmem (by simp)

/-- The positional-`$` watermark update rewrites exactly the first entry
of the user. -/
theorem setFirstLastRead_find? (u : UserId) (mid : MsgId) :
    ∀ l : List Participant,
      (setFirstLastRead l u mid).find? (fun p => p.user = u) =
        ((l.find? (fun p => p.user = u)).map
          (fun p => { p with lastReadMessage := some mid })) := by
  intro l
  induction l with
  | nil => rfl
  | cons p l ih =>
    by_cases h : p.user = u
    · simp [setFirstLastRead, h, List.find?_cons]
    · simp [setFirstLastRead, h, List.find?_cons, ih]

/-- The positional-`$` unread reset rewrites exactly the first entry
of the user. -/
theorem setFirstUnreadZero_find? (u : UserId) :
    ∀ l : List UnreadEntry,
      (setFirstUnreadZero l u).find? (fun e => e.user = u) =
        ((l.find? (fun e => e.user = u)).map (fun e => { e with count := 0 })) := by
  intro l
  induction l with
  | nil => rfl
  | cons e l ih =>
    by_cases h : e.user = u
    · simp [setFirstUnreadZero, h, List.find?_cons]
    · simp [setFirstUnreadZero, h, List.find?_cons, ih]

/-- A conversation found with a participant filter is a member satisfying
both conditions. -/
theorem findConvWithParticipant_spec {db : DB} {cid : ConvId} {u : UserId} {c : Conv}
    (h : findConvWithParticipant db cid u = some c) :
    c ∈ db.conversations ∧ c.id = cid ∧ c.participants.any (fun p => p.user = u) = true := by
  refine ⟨List.mem_of_find?_eq_some h, ?_⟩
  have h2 := List.find?_some h
  simp only [Bool.and_eq_true, decide_eq_true_eq] at h2
  exact ⟨h2.1, h2.2⟩

/-- Under unique conversation ids, the participant-filtered lookup and the
plain id lookup agree. -/
theorem findConv_of_findConvWithParticipant {db : DB} {cid : ConvId} {u : UserId} {c : Conv}
    (hn : (db.conversations.map Conv.id).Nodup)
    (h : findConvWithParticipant db cid u = some c) :
    findConv db cid = some c := by
  rcases findConvWithParticipant_spec h with ⟨hmem, hid, _⟩
  have := nodup_find?_self Conv.id hn hmem
  rw [findConv, ← hid]
  exact this

end Lemmas

/-! ### Registry lemmas -/

/-- After `Map.set(k, v)`, looking `k` up yields `v`. -/
theorem regGet_regSet_self (r : Registry) (k : UserId) (v : ConnectedUser) :
    regGet (regSet r k v) k = some v := by
  rw [regSet]
  by_cases hany : r.any (fun kv => kv.1 = k) = true
  · rw [if_pos hany]
    induction r with
    | nil => cases hany
    | cons kv r ih =>
      by_cases h : kv.1 = k
      · simp [regGet, List.find?_cons, h]
      · rw [List.any_cons] at hany
        have htail : r.any (fun kv => kv.1 = k) = true := by
          rcases Bool.or_eq_true_iff.mp hany with h1 | h1
          · exact absurd (of_decide_eq_true h1) h
          · exact h1
        have ih2 := ih htail
        rw [regGet] at ih2 ⊢
        rw [List.map_cons, List.find?_cons]
        simp only [if_neg h, decide_eq_false h]
        exact ih2
  · rw [if_neg hany]
    rw [Bool.not_eq_true, List.any_eq_false] at hany
    rw [regGet, List.find?_append]
    have hnone : r.find? (fun kv => kv.1 = k) = none :=
      List.find?_eq_none.mpr hany
    simp [hnone, List.find?_cons]

/-- After `Map.delete(k)`, looking `k` up fails. -/
theorem regGet_regDelete_self (r : Registry) (k : UserId) :
    regGet (regDelete r k) k = none := by
  rw [regGet, regDelete]
  have hnone : (r.filter (fun kv => kv.1 ≠ k)).find? (fun kv => kv.1 = k) = none := by
    rw [List.find?_eq_none]
    intro kv hkv
    have h2 := (List.mem_filter.mp hkv).2
    simp only [decide_eq_true_eq]
    simpa using h2
  rw [hnone]
  rfl

/-! ### Claim theorems -/

/-- **C6, counterexample.** The claim asserts the registry supports multiple
concurrent sessions per identity and that an identity with two connected
sessions stays online after one disconnects.  On the code, `connectedUsers`
is keyed by user id: binding session 2 for user 7 displaces session 1
(the stored session becomes `{userId 7, socketId 2}`), and the disconnect
of session 1 deletes user 7's single entry, leaving the identity offline
although session 2 never disconnected. -/
theorem connectedUsers_single_session_counterexample :
    regGet (handleConnectionReg (handleConnectionReg [] ⟨1, 7⟩) ⟨2, 7⟩) 7
        = some ⟨7, 2⟩ ∧
    isOnline
        (handleDisconnectReg
          (handleConnectionReg (handleConnectionReg [] ⟨1, 7⟩) ⟨2, 7⟩) ⟨1, 7⟩) 7
      = false := by
  decide

/-- **C6, amended.** The Connection Registry keeps at most one live session
per identity: `bind(identity, session)` overwrites the identity's previous
binding, `unbind(session)` removes the identity's whole binding (whichever
of its sessions disconnects), and the identity is offline afterwards even
when another of its sessions is still connected. -/
theorem connectedUsers_single_session (r : Registry) (s1 s2 : Sock)
    (h : s1.userId = s2.userId) :
    regGet (handleConnectionReg (handleConnectionReg r s1) s2) s2.userId
        = some ⟨s2.userId, s2.id⟩ ∧
    isOnline
        (handleDisconnectReg (handleConnectionReg (handleConnectionReg r s1) s2) s1)
        s2.userId
      = false := by
  constructor
  · exact regGet_regSet_self _ _ _
  · rw [handleDisconnectReg, h, isOnline, regGet_regDelete_self]
    rfl

/-- **C6, witness** for the amended theorem at a concrete registry. -/
theorem connectedUsers_single_session_witness :
    regGet (handleConnectionReg (handleConnectionReg [(5, ⟨5, 1⟩)] ⟨3, 9⟩) ⟨4, 9⟩) 9
        = some ⟨9, 4⟩ ∧
    isOnline
        (handleDisconnectReg
          (handleConnectionReg (handleConnectionReg [(5, ⟨5, 1⟩)] ⟨3, 9⟩) ⟨4, 9⟩) ⟨3, 9⟩) 9
      = false :=
  connectedUsers_single_session [(5, ⟨5, 1⟩)] ⟨3, 9⟩ ⟨4, 9⟩ rfl

/-- The message types recognized by both content-construction chains
(`text`, the three media types, `location`, `contact`, `call`, `poll`). -/
def recognizedTypes : List String :=
  ["text", "image", "video", "file", "location", "contact", "call", "poll"]

/-- **C9.** For a declared type outside the recognized set, both send paths
construct an entirely empty content payload, and the send still goes
through (the socket path persists the message unconditionally; the REST
path answers 201 when the caller is a participant); for each recognized
type, exactly the corresponding payload field is populated (the socket
media branch stores `content.media`, the REST media branch stores the raw
`content` itself). -/
theorem send_content_payload (t : String) (c : RawContent) :
    (t ∉ recognizedTypes →
      formatContentSocket t c = {} ∧ formatContentRest t c = {}) ∧
    (∀ db u cid newId now,
      (handleSendMessage db u cid c t newId now).messages.length
        = db.messages.length + 1) ∧
    (∀ db u cid newId now conv, findConvWithParticipant db cid u = some conv →
      (sendMessage db u cid c t newId now).1 = 201 ∧
      (sendMessage db u cid c t newId now).2.messages.length
        = db.messages.length + 1) ∧
    (formatContentSocket "text" c = { text := some c.val } ∧
     formatContentRest "text" c = { text := some c.val }) ∧
    (formatContentSocket "image" c = { media := some c.mediaField } ∧
     formatContentRest "image" c = { media := some c.val }) ∧
    (formatContentSocket "video" c = { media := some c.mediaField } ∧
     formatContentRest "video" c = { media := some c.val }) ∧
    (formatContentSocket "file" c = { media := some c.mediaField } ∧
     formatContentRest "file" c = { media := some c.val }) ∧
    (formatContentSocket "location" c = { location := some c.val } ∧
     formatContentRest "location" c = { location := some c.val }) ∧
    (formatContentSocket "contact" c = { contact := some c.val } ∧
     formatContentRest "contact" c = { contact := some c.val }) ∧
    (formatContentSocket "call" c = { call := some c.val } ∧
     formatContentRest "call" c = { call := some c.val }) ∧
    (formatContentSocket "poll" c = { poll := some c.val } ∧
     formatContentRest "poll" c = { poll := some c.val }) := by
  refine ⟨?_, ?_, ?_, ?_, ?_, ?_, ?_, ?_, ?_, ?_, ?_⟩
  · intro h
    simp only [recognizedTypes, List.mem_cons, List.not_mem_nil, or_false, not_or] at h
    obtain ⟨h1, h2, h3, h4, h5, h6, h7, h8⟩ := h
    constructor
    · simp [formatContentSocket, h1, h2, h3, h4, h5, h6, h7, h8]
    · simp [formatContentRest, h1, h2, h3, h4, h5, h6, h7, h8]
  · intro db u cid newId now
    simp [handleSendMessage, updateMsg, updateConv]
  · intro db u cid newId now conv hconv
    simp [sendMessage, hconv, updateConv]
  all_goals simp [formatContentSocket, formatContentRest]

/-- **C9, witness**: the theorem applied to the unrecognized type
`"sticker"` and a concrete conversation store. -/
theorem send_content_payload_witness :
    (formatContentSocket "sticker" ⟨3, 4⟩ = {} ∧
     formatContentRest "sticker" ⟨3, 4⟩ = {}) ∧
    (sendMessage
        ⟨[5], [],
         [⟨1, "direct", none, [⟨5, "owner", none⟩, ⟨6, "member", none⟩], [],
           [⟨6, 0⟩], none, false⟩]⟩
        5 1 ⟨3, 4⟩ "sticker" 10 2).1 = 201 := by
  refine ⟨(send_content_payload "sticker" ⟨3, 4⟩).1 (by decide), ?_⟩
  exact ((send_content_payload "sticker" ⟨3, 4⟩).2.2.1
    ⟨[5], [],
     [⟨1, "direct", none, [⟨5, "owner", none⟩, ⟨6, "member", none⟩], [],
       [⟨6, 0⟩], none, false⟩]⟩
    5 1 10 2
    ⟨1, "direct", none, [⟨5, "owner", none⟩, ⟨6, "member", none⟩], [],
      [⟨6, 0⟩], none, false⟩
    (by decide)).1

/-- **C8.** Creating a `direct` conversation whose participant list does not
have length 1 (besides the implicit creator) fails with 400 and creates
nothing; every successfully created `direct` conversation has exactly 2
participant entries and an empty `admins` list; and `addParticipants` /
`removeParticipants` on an existing `direct` conversation answer 400
without mutating the store. -/
theorem direct_conversation_invariant (db : DB) (creator : UserId) (req : CreateReq)
    (newId : ConvId) (u : UserId) (cid : ConvId) (users : List UserId) :
    (req.ctype = "direct" → req.participants.length ≠ 1 →
      createConversation db creator req newId = (400, db)) ∧
    (req.ctype = "direct" → (createConversation db creator req newId).1 = 201 →
      ∃ conv : Conv,
        (createConversation db creator req newId).2.conversations
            = db.conversations ++ [conv] ∧
        conv.participants.length = 2 ∧ conv.admins = []) ∧
    (∀ conv, findActiveConvWithParticipant db cid u = some conv →
      conv.ctype = "direct" → addParticipants db u cid users = (400, db)) ∧
    (∀ conv, findActiveConvWithParticipant db cid u = some conv →
      conv.ctype = "direct" → removeParticipants db u cid users = (400, db)) := by
  refine ⟨?_, ?_, ?_, ?_⟩
  · intro hd hlen
    simp [createConversation, hd, hlen]
  · intro hd h201
    rw [createConversation] at h201 ⊢
    by_cases hlen : req.participants.length = 1
    · by_cases husers : (db.users.filter (fun uu => uu ∈ req.participants)).length
          = req.participants.length
      · refine ⟨⟨newId, "direct", req.name,
          ⟨creator, "owner", none⟩ ::
            req.participants.map (fun uu => ⟨uu, "member", none⟩),
          [], [], none, false⟩, ?_, ?_, rfl⟩
        · simp [hd, hlen, husers]
        · simp [hlen]
      · exfalso
        rw [hlen] at husers
        simp [hd, hlen, husers] at h201
    · simp [hd, hlen] at h201
  · intro conv hconv hd
    simp [addParticipants, hconv, hd]
  · intro conv hconv hd
    simp [removeParticipants, hconv, hd]

/-- **C8, witness**: concrete instances for all four conjuncts (a direct
create request with two listed participants fails; a valid one yields two
participants and no admins; add/remove on a stored direct conversation
fail). -/
theorem direct_conversation_invariant_witness :
    (createConversation ⟨[5, 6, 7], [], []⟩ 5 ⟨"direct", [6, 7], none⟩ 1 =
      (400, ⟨[5, 6, 7], [], []⟩)) ∧
    (∃ conv : Conv,
      (createConversation ⟨[5, 6, 7], [], []⟩ 5 ⟨"direct", [6], none⟩ 1).2.conversations
          = [] ++ [conv] ∧
      conv.participants.length = 2 ∧ conv.admins = []) ∧
    (addParticipants
        ⟨[5, 6], [],
         [⟨1, "direct", none, [⟨5, "owner", none⟩, ⟨6, "member", none⟩], [],
           [], none, false⟩]⟩ 5 1 [7] =
      (400,
        ⟨[5, 6], [],
         [⟨1, "direct", none, [⟨5, "owner", none⟩, ⟨6, "member", none⟩], [],
           [], none, false⟩]⟩)) ∧
    (removeParticipants
        ⟨[5, 6], [],
         [⟨1, "direct", none, [⟨5, "owner", none⟩, ⟨6, "member", none⟩], [],
           [], none, false⟩]⟩ 5 1 [6] =
      (400,
        ⟨[5, 6], [],
         [⟨1, "direct", none, [⟨5, "owner", none⟩, ⟨6, "member", none⟩], [],
           [], none, false⟩]⟩)) := by
  refine ⟨?_, ?_, ?_, ?_⟩
  · exact (direct_conversation_invariant ⟨[5, 6, 7], [], []⟩ 5 ⟨"direct", [6, 7], none⟩
      1 0 0 []).1 rfl (by decide)
  · exact (direct_conversation_invariant ⟨[5, 6, 7], [], []⟩ 5 ⟨"direct", [6], none⟩
      1 0 0 []).2.1 rfl (by decide)
  · exact (direct_conversation_invariant
      ⟨[5, 6], [],
       [⟨1, "direct", none, [⟨5, "owner", none⟩, ⟨6, "member", none⟩], [],
         [], none, false⟩]⟩ 5 ⟨"", [], none⟩ 0 5 1 [7]).2.2.1
      ⟨1, "direct", none, [⟨5, "owner", none⟩, ⟨6, "member", none⟩], [],
        [], none, false⟩ (by decide) rfl
  · exact (direct_conversation_invariant
      ⟨[5, 6], [],
       [⟨1, "direct", none, [⟨5, "owner", none⟩, ⟨6, "member", none⟩], [],
         [], none, false⟩]⟩ 5 ⟨"", [], none⟩ 0 5 1 [6]).2.2.2
      ⟨1, "direct", none, [⟨5, "owner", none⟩, ⟨6, "member", none⟩], [],
        [], none, false⟩ (by decide) rfl

/-- **C7.** A participant holding the `owner` role can neither be removed by
`removeParticipants` (whenever an owner is among the targets the call
answers an error — 400 at the owner guard itself, 400/403 at the earlier
type/role guards — and the store, hence the conversation's participants
and admins, is returned unchanged) nor leave via `leaveConversation`
(an owner caller always gets 400 with the store unchanged). -/
theorem owner_protection (db : DB) (u : UserId) (cid : ConvId)
    (targets : List UserId) (conv : Conv)
    (hconv : findActiveConvWithParticipant db cid u = some conv) :
    (conv.participants.any
        (fun p => p.role = "owner" && targets.contains p.user) = true →
      (removeParticipants db u cid targets).2 = db ∧
      (removeParticipants db u cid targets).1 ≠ 200) ∧
    ((conv.participants.find? (fun p => p.user = u)).any
        (fun p => p.role = "owner") = true →
      leaveConversation db u cid = (400, db)) := by
  constructor
  · intro howner
    rw [removeParticipants, hconv]
    by_cases hd : conv.ctype = "direct"
    · simp [hd]
    · simp only [if_neg hd]
      rcases hfind : conv.participants.find? (fun p => p.user = u) with _ | cp
      · simp [hfind]
      · by_cases hrole : (["admin", "owner"].contains cp.role) = true
        · have howner2 : ∃ x ∈ conv.participants, x.role = "owner" ∧ x.user ∈ targets := by
            simpa using howner
          have hrole2 : cp.role = "admin" ∨ cp.role = "owner" := by simpa using hrole
          rcases hrole2 with h1 | h1 <;> simp [hfind, h1, howner2]
        · have hrole2 : ¬(cp.role = "admin" ∨ cp.role = "owner") := by simpa using hrole
          obtain ⟨ha, ho⟩ := not_or.mp hrole2
          simp [hfind, ha, ho]
  · intro howner
    rw [leaveConversation, hconv]
    by_cases hd : conv.ctype = "direct"
    · simp [hd]
    · simp [hd, howner]

/-- **C7, witness**: a concrete group conversation whose owner (user 5) is
targeted for removal by admin caller 6, and where owner 5 tries to leave. -/
theorem owner_protection_witness :
    ((removeParticipants
        ⟨[5, 6], [],
         [⟨1, "group", some "g", [⟨5, "owner", none⟩, ⟨6, "admin", none⟩],
           [⟨5⟩, ⟨6⟩], [], none, false⟩]⟩ 6 1 [5]).2 =
      ⟨[5, 6], [],
       [⟨1, "group", some "g", [⟨5, "owner", none⟩, ⟨6, "admin", none⟩],
         [⟨5⟩, ⟨6⟩], [], none, false⟩]⟩ ∧
     (removeParticipants
        ⟨[5, 6], [],
         [⟨1, "group", some "g", [⟨5, "owner", none⟩, ⟨6, "admin", none⟩],
           [⟨5⟩, ⟨6⟩], [], none, false⟩]⟩ 6 1 [5]).1 ≠ 200) ∧
    leaveConversation
        ⟨[5, 6], [],
         [⟨1, "group", some "g", [⟨5, "owner", none⟩, ⟨6, "admin", none⟩],
           [⟨5⟩, ⟨6⟩], [], none, false⟩]⟩ 5 1 =
      (400,
        ⟨[5, 6], [],
         [⟨1, "group", some "g", [⟨5, "owner", none⟩, ⟨6, "admin", none⟩],
           [⟨5⟩, ⟨6⟩], [], none, false⟩]⟩) := by
  constructor
  · exact (owner_protection
      ⟨[5, 6], [],
       [⟨1, "group", some "g", [⟨5, "owner", none⟩, ⟨6, "admin", none⟩],
         [⟨5⟩, ⟨6⟩], [], none, false⟩]⟩ 6 1 [5]
      ⟨1, "group", some "g", [⟨5, "owner", none⟩, ⟨6, "admin", none⟩],
        [⟨5⟩, ⟨6⟩], [], none, false⟩ (by decide)).1 (by decide)
  · exact (owner_protection
      ⟨[5, 6], [],
       [⟨1, "group", some "g", [⟨5, "owner", none⟩, ⟨6, "admin", none⟩],
         [⟨5⟩, ⟨6⟩], [], none, false⟩]⟩ 5 1 []
      ⟨1, "group", some "g", [⟨5, "owner", none⟩, ⟨6, "admin", none⟩],
        [⟨5⟩, ⟨6⟩], [], none, false⟩ (by decide)).2 (by decide)

/-- If the plain id lookup finds a conversation that has the user among its
participants, the participant-filtered lookup finds the same document. -/
theorem findConvWithParticipant_of_findConv {db : DB} {cid : ConvId} {u : UserId}
    {conv : Conv} (h : findConv db cid = some conv)
    (hp : conv.participants.any (fun p => p.user = u) = true) :
    findConvWithParticipant db cid u = some conv := by
  rw [findConv] at h
  rw [findConvWithParticipant]
  revert h
  induction db.conversations with
  | nil => intro h; cases h
  | cons c l ih =>
    intro h
    rw [List.find?_cons] at h ⊢
    by_cases hid : c.id = cid
    · simp only [decide_eq_true hid] at h
      have hc : c = conv := Option.some_injective _ h
      subst hc
      simp [hid, hp]
    · simp only [decide_eq_false hid] at h
      simp only [decide_eq_false hid, Bool.false_and]
      exact ih h

/-- The message persisted by the socket send handler: after the
`$addToSet` step the sender is its sole `readBy` entry. -/
theorem findMsg_handleSendMessage (db : DB) (u : UserId) (cid : ConvId)
    (c : RawContent) (t : String) (newId : MsgId) (now : Time)
    (hfresh : findMsg db newId = none) :
    findMsg (handleSendMessage db u cid c t newId now) newId
      = some { id := newId, conversation := cid, sender := u, mtype := t,
               content := formatContentSocket t c,
               readBy := [⟨u, now⟩], isDeleted := false, deletedBy := none,
               deletedAt := none, createdAt := now } := by
  rw [findMsg] at hfresh
  have h1 := find?_map_keyed Msg.id newId
    (fun m => if m.id = newId then { m with readBy := addToSet m.readBy ⟨u, now⟩ } else m)
    (fun a => by dsimp only; split <;> rfl)
    (db.messages ++
      [{ id := newId, conversation := cid, sender := u, mtype := t,
         content := formatContentSocket t c,
         readBy := [], isDeleted := false, deletedBy := none,
         deletedAt := none, createdAt := now }])
  simp only [handleSendMessage, updateMsg, updateConv, findMsg]
  rw [h1, List.find?_append, hfresh]
  simp [List.find?_cons, addToSet]

/-- The conversation rewrite performed by the socket send handler: set
`lastMessage`, `$inc` every non-sender `unreadCount` entry. -/
theorem findConv_handleSendMessage (db : DB) (u : UserId) (cid : ConvId)
    (c : RawContent) (t : String) (newId : MsgId) (now : Time) (conv : Conv)
    (hconv : findConv db cid = some conv) :
    findConv (handleSendMessage db u cid c t newId now) cid
      = some { conv with
               lastMessage := some newId,
               unreadCount := updateUnreadAll conv.unreadCount (fun e => e.user ≠ u)
                 (fun e => { e with count := e.count + 1 }) } := by
  have hid : conv.id = cid := by
    have := List.find?_some hconv
    simpa using this
  rw [findConv] at hconv
  have h1 := find?_map_keyed Conv.id cid
    (fun cc => if cc.id = cid then
        { cc with
          lastMessage := some newId,
          unreadCount := updateUnreadAll cc.unreadCount (fun e => e.user ≠ u)
            (fun e => { e with count := e.count + 1 }) }
      else cc)
    (fun a => by dsimp only; split <;> rfl)
    db.conversations
  simp only [handleSendMessage, updateMsg, updateConv, findConv]
  rw [h1, hconv]
  simp [hid]

/-- The REST send path: message persisted with the schema-default empty
`readBy`, conversation rewritten only in its `lastMessage` field. -/
theorem sendMessage_rest_effects (db : DB) (u : UserId) (cid : ConvId)
    (c : RawContent) (t : String) (newId : MsgId) (now : Time) (conv : Conv)
    (hfresh : findMsg db newId = none)
    (hconv : findConvWithParticipant db cid u = some conv) :
    (sendMessage db u cid c t newId now).1 = 201 ∧
    findMsg (sendMessage db u cid c t newId now).2 newId
      = some { id := newId, conversation := cid, sender := u, mtype := t,
               content := formatContentRest t c,
               readBy := [], isDeleted := false, deletedBy := none,
               deletedAt := none, createdAt := now } ∧
    (findConv db cid = some conv →
      findConv (sendMessage db u cid c t newId now).2 cid
        = some { conv with lastMessage := some newId }) := by
  rw [findMsg] at hfresh
  refine ⟨by simp [sendMessage, hconv], ?_, ?_⟩
  · simp only [sendMessage, hconv, updateConv, findMsg]
    rw [List.find?_append, hfresh]
    simp [List.find?_cons]
  · intro hconv2
    have hid : conv.id = cid := by
      have := List.find?_some hconv2
      simpa using this
    rw [findConv] at hconv2
    have h1 := find?_map_keyed Conv.id cid
      (fun cc => if cc.id = cid then { cc with lastMessage := some newId } else cc)
      (fun a => by dsimp only; split <;> rfl)
      db.conversations
    simp only [sendMessage, hconv, updateConv, findConv]
    rw [h1, hconv2]
    simp [hid]

/-- **C2, counterexample.** The claim covers the REST `sendMessage` path as
well, but that path persists the message with the schema-default empty
`readBy` and never registers the sender: after a successful REST send of
message 10 by user 5, user 5 is absent from its `readBy`. -/
theorem rest_send_no_autoread_counterexample :
    (sendMessage ⟨[5, 6], [],
       [⟨1, "direct", none, [⟨5, "owner", none⟩, ⟨6, "member", none⟩], [],
         [⟨5, 0⟩, ⟨6, 0⟩], none, false⟩]⟩ 5 1 ⟨3, 4⟩ "text" 10 2).1 = 201 ∧
    (findMsg (sendMessage ⟨[5, 6], [],
       [⟨1, "direct", none, [⟨5, "owner", none⟩, ⟨6, "member", none⟩], [],
         [⟨5, 0⟩, ⟨6, 0⟩], none, false⟩]⟩ 5 1 ⟨3, 4⟩ "text" 10 2).2 10).map
      (fun m => readByUser m.readBy 5) = some false := by
  decide

/-- **C2, amended.** Only the real-time `message:send` handler
auto-registers the sender: after it completes, the persisted message's
`readBy` holds exactly the sender entry.  The REST `sendMessage` path
persists the message with an empty `readBy`; the sender is not present
until an explicit read call. -/
theorem sender_autoread (db : DB) (u : UserId) (cid : ConvId) (c : RawContent)
    (t : String) (newId : MsgId) (now : Time)
    (hfresh : findMsg db newId = none) :
    ((findMsg (handleSendMessage db u cid c t newId now) newId).map
        (fun m => readByUser m.readBy u) = some true) ∧
    (∀ conv, findConvWithParticipant db cid u = some conv →
      (findMsg (sendMessage db u cid c t newId now).2 newId).map Msg.readBy
        = some []) := by
  constructor
  · rw [findMsg_handleSendMessage db u cid c t newId now hfresh]
    simp [readByUser]
  · intro conv hconv
    rw [(sendMessage_rest_effects db u cid c t newId now conv hfresh hconv).2.1]
    rfl

/-- **C2, witness** for the amended theorem on a concrete store. -/
theorem sender_autoread_witness :
    ((findMsg (handleSendMessage ⟨[5, 6], [],
        [⟨1, "direct", none, [⟨5, "owner", none⟩, ⟨6, "member", none⟩], [],
          [⟨5, 0⟩, ⟨6, 0⟩], none, false⟩]⟩ 5 1 ⟨3, 4⟩ "text" 10 2) 10).map
        (fun m => readByUser m.readBy 5) = some true) ∧
    ((findMsg (sendMessage ⟨[5, 6], [],
        [⟨1, "direct", none, [⟨5, "owner", none⟩, ⟨6, "member", none⟩], [],
          [⟨5, 0⟩, ⟨6, 0⟩], none, false⟩]⟩ 5 1 ⟨3, 4⟩ "text" 10 2).2 10).map
        Msg.readBy = some []) :=
  ⟨(sender_autoread ⟨[5, 6], [],
      [⟨1, "direct", none, [⟨5, "owner", none⟩, ⟨6, "member", none⟩], [],
        [⟨5, 0⟩, ⟨6, 0⟩], none, false⟩]⟩ 5 1 ⟨3, 4⟩ "text" 10 2 rfl).1,
   (sender_autoread ⟨[5, 6], [],
      [⟨1, "direct", none, [⟨5, "owner", none⟩, ⟨6, "member", none⟩], [],
        [⟨5, 0⟩, ⟨6, 0⟩], none, false⟩]⟩ 5 1 ⟨3, 4⟩ "text" 10 2 rfl).2
    ⟨1, "direct", none, [⟨5, "owner", none⟩, ⟨6, "member", none⟩], [],
      [⟨5, 0⟩, ⟨6, 0⟩], none, false⟩ (by decide)⟩

/-- **C3, counterexample.** The claim covers the REST `sendMessage` path as
well, but that path only sets `lastMessage`: after a successful REST send
by user 5 into conversation 1, participant 6's unread counter is still 0
instead of being incremented to 1. -/
theorem rest_send_unread_counterexample :
    (sendMessage ⟨[5, 6], [],
       [⟨1, "direct", none, [⟨5, "owner", none⟩, ⟨6, "member", none⟩], [],
         [⟨5, 0⟩, ⟨6, 0⟩], none, false⟩]⟩ 5 1 ⟨3, 4⟩ "text" 10 2).1 = 201 ∧
    (findConv (sendMessage ⟨[5, 6], [],
       [⟨1, "direct", none, [⟨5, "owner", none⟩, ⟨6, "member", none⟩], [],
         [⟨5, 0⟩, ⟨6, 0⟩], none, false⟩]⟩ 5 1 ⟨3, 4⟩ "text" 10 2).2 1).map
      Conv.unreadCount = some [⟨5, 0⟩, ⟨6, 0⟩] := by
  decide

/-- **C3, amended.** On the real-time `message:send` path the owning
conversation gets `lastMessage := newId` and every `unreadCount` entry of
a user other than the sender is incremented by exactly 1, the sender's own
entry staying unchanged.  On the REST `sendMessage` path only
`lastMessage` is set: every unread counter, the other participants'
included, is left unchanged. -/
theorem send_updates_conversation (db : DB) (u : UserId) (cid : ConvId)
    (c : RawContent) (t : String) (newId : MsgId) (now : Time) (conv : Conv)
    (hconv : findConv db cid = some conv)
    (hpart : conv.participants.any (fun p => p.user = u) = true) :
    (∃ convNew,
      findConv (handleSendMessage db u cid c t newId now) cid = some convNew ∧
      convNew.lastMessage = some newId ∧
      convNew.unreadCount.length = conv.unreadCount.length ∧
      ∀ i, i < conv.unreadCount.length →
        (convNew.unreadCount.getD i ⟨0, 0⟩).user
            = (conv.unreadCount.getD i ⟨0, 0⟩).user ∧
        (convNew.unreadCount.getD i ⟨0, 0⟩).count
            = (conv.unreadCount.getD i ⟨0, 0⟩).count +
                (if (conv.unreadCount.getD i ⟨0, 0⟩).user = u then 0 else 1)) ∧
    ((sendMessage db u cid c t newId now).1 = 201 ∧
      ∃ convNew,
        findConv (sendMessage db u cid c t newId now).2 cid = some convNew ∧
        convNew.lastMessage = some newId ∧
        convNew.unreadCount = conv.unreadCount) := by
  constructor
  · refine ⟨_, findConv_handleSendMessage db u cid c t newId now conv hconv, rfl, ?_, ?_⟩
    · simp [updateUnreadAll]
    · intro i hi
      have hi2 : i < (updateUnreadAll conv.unreadCount (fun e => e.user ≠ u)
          (fun e => { e with count := e.count + 1 })).length := by
        simpa [updateUnreadAll] using hi
      rw [updateUnreadAll] at hi2 ⊢
      rw [List.getD_eq_getElem _ _ hi2, List.getD_eq_getElem _ _ hi, List.getElem_map]
      by_cases hu : conv.unreadCount[i].user = u
      · simp [hu]
      · simp [hu]
  · have hconvp := findConvWithParticipant_of_findConv hconv hpart
    refine ⟨by simp [sendMessage, hconvp], ?_⟩
    have hid : conv.id = cid := by
      have := List.find?_some hconv
      simpa using this
    have h1 := find?_map_keyed Conv.id cid
      (fun cc => if cc.id = cid then { cc with lastMessage := some newId } else cc)
      (fun a => by dsimp only; split <;> rfl)
      db.conversations
    rw [findConv] at hconv
    refine ⟨{ conv with lastMessage := some newId }, ?_, rfl, rfl⟩
    simp only [sendMessage, hconvp, updateConv, findConv]
    rw [h1, hconv]
    simp [hid]

/-- **C3, witness** for the amended theorem on a concrete store. -/
theorem send_updates_conversation_witness :
    (∃ convNew,
      findConv (handleSendMessage ⟨[5, 6], [],
          [⟨1, "direct", none, [⟨5, "owner", none⟩, ⟨6, "member", none⟩], [],
            [⟨5, 0⟩, ⟨6, 2⟩], none, false⟩]⟩ 5 1 ⟨3, 4⟩ "text" 10 2) 1
          = some convNew ∧
      convNew.lastMessage = some 10 ∧
      convNew.unreadCount.length
          = ([⟨5, 0⟩, ⟨6, 2⟩] : List UnreadEntry).length ∧
      ∀ i, i < ([⟨5, 0⟩, ⟨6, 2⟩] : List UnreadEntry).length →
        (convNew.unreadCount.getD i ⟨0, 0⟩).user
            = (([⟨5, 0⟩, ⟨6, 2⟩] : List UnreadEntry).getD i ⟨0, 0⟩).user ∧
        (convNew.unreadCount.getD i ⟨0, 0⟩).count
            = (([⟨5, 0⟩, ⟨6, 2⟩] : List UnreadEntry).getD i ⟨0, 0⟩).count +
                (if (([⟨5, 0⟩, ⟨6, 2⟩] : List UnreadEntry).getD i ⟨0, 0⟩).user = 5
                 then 0 else 1)) ∧
    ((sendMessage ⟨[5, 6], [],
        [⟨1, "direct", none, [⟨5, "owner", none⟩, ⟨6, "member", none⟩], [],
          [⟨5, 0⟩, ⟨6, 2⟩], none, false⟩]⟩ 5 1 ⟨3, 4⟩ "text" 10 2).1 = 201 ∧
      ∃ convNew,
        findConv (sendMessage ⟨[5, 6], [],
            [⟨1, "direct", none, [⟨5, "owner", none⟩, ⟨6, "member", none⟩], [],
              [⟨5, 0⟩, ⟨6, 2⟩], none, false⟩]⟩ 5 1 ⟨3, 4⟩ "text" 10 2).2 1
            = some convNew ∧
        convNew.lastMessage = some 10 ∧
        convNew.unreadCount = [⟨5, 0⟩, ⟨6, 2⟩]) :=
  send_updates_conversation ⟨[5, 6], [],
      [⟨1, "direct", none, [⟨5, "owner", none⟩, ⟨6, "member", none⟩], [],
        [⟨5, 0⟩, ⟨6, 2⟩], none, false⟩]⟩ 5 1 ⟨3, 4⟩ "text" 10 2
    ⟨1, "direct", none, [⟨5, "owner", none⟩, ⟨6, "member", none⟩], [],
      [⟨5, 0⟩, ⟨6, 2⟩], none, false⟩ (by decide) (by decide)

/-- `updateMsg` rewrites the looked-up document (for an id-preserving
rewrite). -/
theorem findMsg_updateMsg (db : DB) (mid : MsgId) (f : Msg → Msg)
    (hf : ∀ m, (f m).id = m.id) :
    findMsg (updateMsg db mid f) mid
      = (findMsg db mid).map (fun m => if m.id = mid then f m else m) :=
  find?_map_keyed Msg.id mid
    (fun m => if m.id = mid then f m else m)
    (fun a => by dsimp only; split
                 · exact hf a
                 · rfl)
    db.messages

/-- **C1, counterexample.** User 2 is not a participant of conversation 1,
yet both single-message read paths accept the call and mutate the store:
the socket `message:read` handler returns silently with user 2 appended to
message 10's `readBy`, and the REST `markAsRead` answers 200 with the same
mutation.  The claim's "fails with an authorization error and no stored
state is changed" is false on both single-message paths. -/
theorem single_read_no_participant_check_counterexample :
    (([⟨1, "owner", none⟩] : List Participant).any (fun p => p.user = 2)) = false ∧
    (handleMessageRead ⟨[1, 2],
        [⟨10, 1, 1, "text", {}, [⟨1, 0⟩], false, none, none, 0⟩],
        [⟨1, "group", some "g", [⟨1, "owner", none⟩], [⟨1⟩], [⟨1, 0⟩], some 10,
          false⟩]⟩ 2 1 10 5).1 = .ok ∧
    (findMsg (handleMessageRead ⟨[1, 2],
        [⟨10, 1, 1, "text", {}, [⟨1, 0⟩], false, none, none, 0⟩],
        [⟨1, "group", some "g", [⟨1, "owner", none⟩], [⟨1⟩], [⟨1, 0⟩], some 10,
          false⟩]⟩ 2 1 10 5).2 10).map
      (fun m => readByUser m.readBy 2) = some true ∧
    (markAsRead ⟨[1, 2],
        [⟨10, 1, 1, "text", {}, [⟨1, 0⟩], false, none, none, 0⟩],
        [⟨1, "group", some "g", [⟨1, "owner", none⟩], [⟨1⟩], [⟨1, 0⟩], some 10,
          false⟩]⟩ 2 10 5).1 = 200 ∧
    (findMsg (markAsRead ⟨[1, 2],
        [⟨10, 1, 1, "text", {}, [⟨1, 0⟩], false, none, none, 0⟩],
        [⟨1, "group", some "g", [⟨1, "owner", none⟩], [⟨1⟩], [⟨1, 0⟩], some 10,
          false⟩]⟩ 2 10 5).2 10).map
      (fun m => readByUser m.readBy 2) = some true := by
  decide

/-- **C1, amended.** Only the batch `markManyRead` path requires the caller
to be a current participant: a non-participant batch call fails (404,
"Conversation not found or you are not a participant") with no state
change and no updated ids.  The single-message markRead paths (socket
`message:read` handler and REST mark-as-read endpoint) perform no
participant check at all: for any existing message not yet read by the
caller they accept the call (socket: silent success; REST: 200) and
mutate the message's `readBy`. -/
theorem read_paths_participant_check (db : DB) (u : UserId) (cid : ConvId)
    (mid : MsgId) (ids : List MsgId) (now : Time) :
    (ids ≠ [] → findConvWithParticipant db cid u = none →
      markMultipleAsRead db u ids cid now = (404, [], db)) ∧
    (∀ m, findMsg db mid = some m → readByUser m.readBy u = false →
      (handleMessageRead db u cid mid now).1 = .ok ∧
      (markAsRead db u mid now).1 = 200) := by
  constructor
  · intro hids hnone
    rw [markMultipleAsRead]
    simp [List.isEmpty_iff, hids, hnone]
  · intro m hm hnew
    constructor
    · simp [handleMessageRead, hm, hnew]
    · simp [markAsRead, hm, hnew]

/-- **C1, witness** for the amended theorem on a concrete store. -/
theorem read_paths_participant_check_witness :
    markMultipleAsRead ⟨[1, 2],
        [⟨10, 1, 1, "text", {}, [⟨1, 0⟩], false, none, none, 0⟩],
        [⟨1, "group", some "g", [⟨1, "owner", none⟩], [⟨1⟩], [⟨1, 0⟩], some 10,
          false⟩]⟩ 2 [10] 1 5 =
      (404, [], ⟨[1, 2],
        [⟨10, 1, 1, "text", {}, [⟨1, 0⟩], false, none, none, 0⟩],
        [⟨1, "group", some "g", [⟨1, "owner", none⟩], [⟨1⟩], [⟨1, 0⟩], some 10,
          false⟩]⟩) ∧
    (handleMessageRead ⟨[1, 2],
        [⟨10, 1, 1, "text", {}, [⟨1, 0⟩], false, none, none, 0⟩],
        [⟨1, "group", some "g", [⟨1, "owner", none⟩], [⟨1⟩], [⟨1, 0⟩], some 10,
          false⟩]⟩ 2 1 10 5).1 = .ok ∧
    (markAsRead ⟨[1, 2],
        [⟨10, 1, 1, "text", {}, [⟨1, 0⟩], false, none, none, 0⟩],
        [⟨1, "group", some "g", [⟨1, "owner", none⟩], [⟨1⟩], [⟨1, 0⟩], some 10,
          false⟩]⟩ 2 10 5).1 = 200 :=
  ⟨(read_paths_participant_check ⟨[1, 2],
      [⟨10, 1, 1, "text", {}, [⟨1, 0⟩], false, none, none, 0⟩],
      [⟨1, "group", some "g", [⟨1, "owner", none⟩], [⟨1⟩], [⟨1, 0⟩], some 10,
        false⟩]⟩ 2 1 10 [10] 5).1 (by decide) (by decide),
   (read_paths_participant_check ⟨[1, 2],
      [⟨10, 1, 1, "text", {}, [⟨1, 0⟩], false, none, none, 0⟩],
      [⟨1, "group", some "g", [⟨1, "owner", none⟩], [⟨1⟩], [⟨1, 0⟩], some 10,
        false⟩]⟩ 2 1 10 [10] 5).2
    ⟨10, 1, 1, "text", {}, [⟨1, 0⟩], false, none, none, 0⟩ (by decide) (by decide)⟩

/-- **C4.** Single-message read marking is idempotent on both paths: a
first call by a user not yet in `readBy` appends exactly one entry (the
set size grows by 1), and a second identical call performs no store
mutation whatsoever (socket: silent return with the store unchanged, so
the unread-counter reset also runs at most once; REST: 400 with the store
unchanged), so two calls change `readBy` size by exactly 1, not 2. -/
theorem markread_idempotent (db : DB) (u : UserId) (cid : ConvId) (mid : MsgId)
    (now1 now2 : Time) (m : Msg)
    (hm : findMsg db mid = some m)
    (hnew : readByUser m.readBy u = false) :
    (∃ m1, findMsg (handleMessageRead db u cid mid now1).2 mid = some m1 ∧
      m1.readBy = m.readBy ++ [⟨u, now1⟩] ∧
      m1.readBy.length = m.readBy.length + 1 ∧
      handleMessageRead (handleMessageRead db u cid mid now1).2 u cid mid now2
        = (.ok, (handleMessageRead db u cid mid now1).2)) ∧
    (∃ m1, findMsg (markAsRead db u mid now1).2 mid = some m1 ∧
      m1.readBy = m.readBy ++ [⟨u, now1⟩] ∧
      m1.readBy.length = m.readBy.length + 1 ∧
      markAsRead (markAsRead db u mid now1).2 u mid now2
        = (400, (markAsRead db u mid now1).2)) := by
  have hid : m.id = mid := by
    have := List.find?_some hm
    simpa using this
  have hread : readByUser (m.readBy ++ [⟨u, now1⟩]) u = true := by
    simp [readByUser]
  constructor
  · have hdb1 : (handleMessageRead db u cid mid now1).2
        = updateConv (updateMsg db mid
            (fun mm => { mm with readBy := addToSet mm.readBy ⟨u, now1⟩ })) cid
            (fun c =>
              { c with
                unreadCount := updateUnreadAll c.unreadCount (fun e => e.user = u)
                  (fun e => { e with count := 0 }) }) := by
      simp [handleMessageRead, hm, hnew]
    have hfind : findMsg (handleMessageRead db u cid mid now1).2 mid
        = some { m with readBy := m.readBy ++ [⟨u, now1⟩] } := by
      rw [hdb1]
      show findMsg (updateMsg db mid _) mid = _
      rw [findMsg_updateMsg db mid
        (fun mm => { mm with readBy := addToSet mm.readBy ⟨u, now1⟩ })
        (fun mm => rfl), hm]
      simp [hid, addToSet_of_not_read now1 hnew]
    refine ⟨_, hfind, rfl, by simp, ?_⟩
    rw [handleMessageRead, hfind]
    simp [hread]
  · have hdb1 : (markAsRead db u mid now1).2
        = updateMsg db mid
            (fun mm => { mm with readBy := addToSet mm.readBy ⟨u, now1⟩ }) := by
      simp [markAsRead, hm, hnew]
    have hfind : findMsg (markAsRead db u mid now1).2 mid
        = some { m with readBy := m.readBy ++ [⟨u, now1⟩] } := by
      rw [hdb1]
      rw [findMsg_updateMsg db mid
        (fun mm => { mm with readBy := addToSet mm.readBy ⟨u, now1⟩ })
        (fun mm => rfl), hm]
      simp [hid, addToSet_of_not_read now1 hnew]
    refine ⟨_, hfind, rfl, by simp, ?_⟩
    rw [markAsRead, hfind]
    simp [hread]

/-- **C4, witness**: message 10 of conversation 1, first unread then read
twice by participant 6. -/
theorem markread_idempotent_witness :
    (∃ m1, findMsg (handleMessageRead ⟨[5, 6],
        [⟨10, 1, 5, "text", {}, [⟨5, 0⟩], false, none, none, 0⟩],
        [⟨1, "direct", none, [⟨5, "owner", none⟩, ⟨6, "member", none⟩], [],
          [⟨5, 0⟩, ⟨6, 1⟩], some 10, false⟩]⟩ 6 1 10 4).2 10 = some m1 ∧
      m1.readBy = [⟨5, 0⟩] ++ [⟨6, 4⟩] ∧
      m1.readBy.length = ([⟨5, 0⟩] : List ReadEntry).length + 1 ∧
      handleMessageRead (handleMessageRead ⟨[5, 6],
          [⟨10, 1, 5, "text", {}, [⟨5, 0⟩], false, none, none, 0⟩],
          [⟨1, "direct", none, [⟨5, "owner", none⟩, ⟨6, "member", none⟩], [],
            [⟨5, 0⟩, ⟨6, 1⟩], some 10, false⟩]⟩ 6 1 10 4).2 6 1 10 9
        = (.ok, (handleMessageRead ⟨[5, 6],
            [⟨10, 1, 5, "text", {}, [⟨5, 0⟩], false, none, none, 0⟩],
            [⟨1, "direct", none, [⟨5, "owner", none⟩, ⟨6, "member", none⟩], [],
              [⟨5, 0⟩, ⟨6, 1⟩], some 10, false⟩]⟩ 6 1 10 4).2)) ∧
    (∃ m1, findMsg (markAsRead ⟨[5, 6],
        [⟨10, 1, 5, "text", {}, [⟨5, 0⟩], false, none, none, 0⟩],
        [⟨1, "direct", none, [⟨5, "owner", none⟩, ⟨6, "member", none⟩], [],
          [⟨5, 0⟩, ⟨6, 1⟩], some 10, false⟩]⟩ 6 10 4).2 10 = some m1 ∧
      m1.readBy = [⟨5, 0⟩] ++ [⟨6, 4⟩] ∧
      m1.readBy.length = ([⟨5, 0⟩] : List ReadEntry).length + 1 ∧
      markAsRead (markAsRead ⟨[5, 6],
          [⟨10, 1, 5, "text", {}, [⟨5, 0⟩], false, none, none, 0⟩],
          [⟨1, "direct", none, [⟨5, "owner", none⟩, ⟨6, "member", none⟩], [],
            [⟨5, 0⟩, ⟨6, 1⟩], some 10, false⟩]⟩ 6 10 4).2 6 10 9
        = (400, (markAsRead ⟨[5, 6],
            [⟨10, 1, 5, "text", {}, [⟨5, 0⟩], false, none, none, 0⟩],
            [⟨1, "direct", none, [⟨5, "owner", none⟩, ⟨6, "member", none⟩], [],
              [⟨5, 0⟩, ⟨6, 1⟩], some 10, false⟩]⟩ 6 10 4).2)) :=
  markread_idempotent ⟨[5, 6],
      [⟨10, 1, 5, "text", {}, [⟨5, 0⟩], false, none, none, 0⟩],
      [⟨1, "direct", none, [⟨5, "owner", none⟩, ⟨6, "member", none⟩], [],
        [⟨5, 0⟩, ⟨6, 1⟩], some 10, false⟩]⟩ 6 1 10 4 9
    ⟨10, 1, 5, "text", {}, [⟨5, 0⟩], false, none, none, 0⟩ (by decide) (by decide)

/-- The recompute query of `deleteMessage` runs against the store after the
soft delete: the candidate set is exactly the conversation's non-deleted
messages other than the deleted one. -/
theorem filter_after_softdelete (msgs : List Msg) (mid : MsgId) (cid : ConvId)
    (u : UserId) (now : Time) :
    ((msgs.map (fun mm => if mm.id = mid then
        { mm with isDeleted := true, deletedAt := some now, deletedBy := some u }
      else mm)).filter (fun mm => mm.conversation = cid && !mm.isDeleted))
    = msgs.filter
        (fun mm => mm.conversation = cid && !mm.isDeleted && mm.id ≠ mid) := by
  induction msgs with
  | nil => rfl
  | cons mm l ih =>
    rw [List.map_cons, List.filter_cons, List.filter_cons]
    by_cases hmid : mm.id = mid
    · simp [hmid, ih]
    · by_cases hc : mm.conversation = cid
      · by_cases hdel : mm.isDeleted
        · simp [hmid, hc, hdel, ih]
        · simp [hmid, hc, hdel, ih]
      · simp [hmid, hc, ih]

/-- **C10.** When `deleteMessage` soft-deletes the message currently
referenced by the conversation's `lastMessage`, the conversation's
`lastMessage` is recomputed to the max-`createdAt` non-deleted message
remaining in the conversation (cleared to `none` when none remains); when
the deleted message is not the `lastMessage`, no conversation document is
modified at all. -/
theorem deleteMessage_lastMessage (db : DB) (u : UserId) (mid : MsgId) (now : Time)
    (m : Msg) (conv : Conv) (R : List Msg)
    (hm : findMsg db mid = some m)
    (hsender : m.sender = u)
    (hconv : findConv db m.conversation = some conv)
    (hR : R = db.messages.filter
      (fun mm => mm.conversation = m.conversation && !mm.isDeleted && mm.id ≠ mid)) :
    (deleteMessage db u mid now).1 = 200 ∧
    (conv.lastMessage ≠ some mid →
      (deleteMessage db u mid now).2.conversations = db.conversations) ∧
    (conv.lastMessage = some mid →
      ∃ convNew,
        findConv (deleteMessage db u mid now).2 m.conversation = some convNew ∧
        (R = [] → convNew.lastMessage = none) ∧
        (R ≠ [] → ∃ mx ∈ R, (∀ my ∈ R, my.createdAt ≤ mx.createdAt) ∧
          convNew.lastMessage = some mx.id)) := by
  have hcid : conv.id = m.conversation := by
    have := List.find?_some hconv
    simpa using this
  have hconv2 : findConv (updateMsg db mid
      (fun mm =>
        { mm with
          isDeleted := true
          deletedAt := some now
          deletedBy := some u })) m.conversation = some conv := hconv
  by_cases hlast : conv.lastMessage = some mid
  · have hres : deleteMessage db u mid now
        = (200, updateConv (updateMsg db mid
            (fun mm =>
              { mm with
                isDeleted := true
                deletedAt := some now
                deletedBy := some u })) m.conversation
            (fun c =>
              { c with
                lastMessage :=
                  (latestIn ((updateMsg db mid
                      (fun mm =>
                        { mm with
                          isDeleted := true
                          deletedAt := some now
                          deletedBy := some u })).messages.filter
                    (fun mm => mm.conversation = m.conversation && !mm.isDeleted))).map
                    (fun mm => mm.id) })) := by
      simp [deleteMessage, hm, hsender, hconv2, hlast]
    refine ⟨by rw [hres], fun hc => absurd hlast hc, fun _ => ?_⟩
    have hfilters : ((updateMsg db mid
        (fun mm =>
          { mm with
            isDeleted := true
            deletedAt := some now
            deletedBy := some u })).messages.filter
          (fun mm => mm.conversation = m.conversation && !mm.isDeleted)) = R := by
      rw [hR]
      exact filter_after_softdelete db.messages mid m.conversation u now
    have h1 := find?_map_keyed Conv.id m.conversation
      (fun c => if c.id = m.conversation then
          { c with lastMessage := (latestIn R).map (fun mm => mm.id) }
        else c)
      (fun a => by dsimp only; split <;> rfl)
      db.conversations
    have hfindNew : findConv (deleteMessage db u mid now).2 m.conversation
        = some { conv with lastMessage := (latestIn R).map (fun mm => mm.id) } := by
      rw [hres]
      show (db.conversations.map _).find? _ = _
      rw [hfilters] at *
      rw [findConv] at hconv
      rw [h1, hconv]
      simp [hcid]
    refine ⟨_, hfindNew, ?_, ?_⟩
    · intro hempty
      simp [latestIn_eq_none_iff.mpr hempty]
    · intro hne
      cases hl : latestIn R with
      | none => exact absurd (latestIn_eq_none_iff.mp hl) hne
      | some mx =>
        exact ⟨mx, latestIn_mem hl, latestIn_maximal hl, by simp [hl]⟩
  · have hres : deleteMessage db u mid now
        = (200, updateMsg db mid
            (fun mm =>
              { mm with
                isDeleted := true
                deletedAt := some now
                deletedBy := some u })) := by
      simp [deleteMessage, hm, hsender, hconv2, hlast]
    exact ⟨by rw [hres], fun _ => by rw [hres]; rfl, fun hc => absurd hc hlast⟩

/-- **C10, witness**: deleting message 10 (the `lastMessage` of
conversation 1) leaves message 11 as the only remaining candidate, and the
conversation's `lastMessage` is recomputed to it. -/
theorem deleteMessage_lastMessage_witness :
    (deleteMessage ⟨[5, 6],
        [⟨10, 1, 5, "text", {}, [⟨5, 0⟩], false, none, none, 3⟩,
         ⟨11, 1, 6, "text", {}, [⟨6, 0⟩], false, none, none, 1⟩],
        [⟨1, "direct", none, [⟨5, "owner", none⟩, ⟨6, "member", none⟩], [],
          [⟨5, 0⟩, ⟨6, 0⟩], some 10, false⟩]⟩ 5 10 7).1 = 200 ∧
    ((⟨1, "direct", none, [⟨5, "owner", none⟩, ⟨6, "member", none⟩], [],
        [⟨5, 0⟩, ⟨6, 0⟩], some 10, false⟩ : Conv).lastMessage ≠ some 10 →
      (deleteMessage ⟨[5, 6],
        [⟨10, 1, 5, "text", {}, [⟨5, 0⟩], false, none, none, 3⟩,
         ⟨11, 1, 6, "text", {}, [⟨6, 0⟩], false, none, none, 1⟩],
        [⟨1, "direct", none, [⟨5, "owner", none⟩, ⟨6, "member", none⟩], [],
          [⟨5, 0⟩, ⟨6, 0⟩], some 10, false⟩]⟩ 5 10 7).2.conversations =
        [⟨1, "direct", none, [⟨5, "owner", none⟩, ⟨6, "member", none⟩], [],
          [⟨5, 0⟩, ⟨6, 0⟩], some 10, false⟩]) ∧
    ((⟨1, "direct", none, [⟨5, "owner", none⟩, ⟨6, "member", none⟩], [],
        [⟨5, 0⟩, ⟨6, 0⟩], some 10, false⟩ : Conv).lastMessage = some 10 →
      ∃ convNew,
        findConv (deleteMessage ⟨[5, 6],
          [⟨10, 1, 5, "text", {}, [⟨5, 0⟩], false, none, none, 3⟩,
           ⟨11, 1, 6, "text", {}, [⟨6, 0⟩], false, none, none, 1⟩],
          [⟨1, "direct", none, [⟨5, "owner", none⟩, ⟨6, "member", none⟩], [],
            [⟨5, 0⟩, ⟨6, 0⟩], some 10, false⟩]⟩ 5 10 7).2 1 = some convNew ∧
        (([⟨11, 1, 6, "text", {}, [⟨6, 0⟩], false, none, none, 1⟩] : List Msg) = [] →
          convNew.lastMessage = none) ∧
        (([⟨11, 1, 6, "text", {}, [⟨6, 0⟩], false, none, none, 1⟩] : List Msg) ≠ [] →
          ∃ mx ∈ ([⟨11, 1, 6, "text", {}, [⟨6, 0⟩], false, none, none, 1⟩] : List Msg),
            (∀ my ∈ ([⟨11, 1, 6, "text", {}, [⟨6, 0⟩], false, none, none, 1⟩] : List Msg),
              my.createdAt ≤ mx.createdAt) ∧
            convNew.lastMessage = some mx.id)) :=
  deleteMessage_lastMessage ⟨[5, 6],
      [⟨10, 1, 5, "text", {}, [⟨5, 0⟩], false, none, none, 3⟩,
       ⟨11, 1, 6, "text", {}, [⟨6, 0⟩], false, none, none, 1⟩],
      [⟨1, "direct", none, [⟨5, "owner", none⟩, ⟨6, "member", none⟩], [],
        [⟨5, 0⟩, ⟨6, 0⟩], some 10, false⟩]⟩ 5 10 7
    ⟨10, 1, 5, "text", {}, [⟨5, 0⟩], false, none, none, 3⟩
    ⟨1, "direct", none, [⟨5, "owner", none⟩, ⟨6, "member", none⟩], [],
      [⟨5, 0⟩, ⟨6, 0⟩], some 10, false⟩
    [⟨11, 1, 6, "text", {}, [⟨6, 0⟩], false, none, none, 1⟩]
    (by decide) (by decide) (by decide) (by decide)

theorem bulkAddRead_id (u : UserId) (now : Time) (ids : List MsgId) (m : Msg) :
    (bulkAddRead u now ids m).id = m.id := by
  rw [bulkAddRead]; split <;> rfl

theorem bulkAddRead_createdAt (u : UserId) (now : Time) (ids : List MsgId) (m : Msg) :
    (bulkAddRead u now ids m).createdAt = m.createdAt := by
  rw [bulkAddRead]; split <;> rfl

theorem setWatermark_id (cid : ConvId) (u : UserId) (mid : MsgId) (c : Conv) :
    (setWatermark cid u mid c).id = c.id := by
  rw [setWatermark]; split <;> rfl

theorem setWatermark_unreadCount (cid : ConvId) (u : UserId) (mid : MsgId) (c : Conv) :
    (setWatermark cid u mid c).unreadCount = c.unreadCount := by
  rw [setWatermark]; split <;> rfl

theorem resetUnread_id (cid : ConvId) (u : UserId) (c : Conv) :
    (resetUnread cid u c).id = c.id := by
  rw [resetUnread]; split <;> rfl

theorem resetUnread_participants (cid : ConvId) (u : UserId) (c : Conv) :
    (resetUnread cid u c).participants = c.participants := by
  rw [resetUnread]; split <;> rfl

/-- **C5.** `markMultipleAsRead` with `sub` the messages among `messageIds`
that belong to the conversation and are not already read by the caller:
an empty `sub` yields a successful call reporting no updated ids and an
unchanged store; a non-empty `sub` yields 200 reporting exactly `sub`'s
ids, appends the caller to the `readBy` of exactly the messages of `sub`
(every other message survives unchanged), leaves every other conversation
unchanged, sets the caller's `lastReadMessage` watermark to a
max-`createdAt` member of `sub`, and zeroes the caller's unread entry. -/
theorem markMultipleAsRead_spec (db : DB) (u : UserId) (messageIds : List MsgId)
    (cid : ConvId) (now : Time) (conv : Conv) (sub : List Msg)
    (hids : messageIds ≠ [])
    (hconv : findConvWithParticipant db cid u = some conv)
    (hmn : (db.messages.map Msg.id).Nodup)
    (hcn : (db.conversations.map Conv.id).Nodup)
    (hsub : sub = db.messages.filter
      (fun m => m.id ∈ messageIds && m.conversation = cid &&
        !readByUser m.readBy u)) :
    (sub = [] → markMultipleAsRead db u messageIds cid now = (200, [], db)) ∧
    (sub ≠ [] →
      (markMultipleAsRead db u messageIds cid now).1 = 200 ∧
      (markMultipleAsRead db u messageIds cid now).2.1 = sub.map (fun m => m.id) ∧
      (∀ m ∈ db.messages, m ∈ sub →
        findMsg (markMultipleAsRead db u messageIds cid now).2.2 m.id
          = some { m with readBy := m.readBy ++ [⟨u, now⟩] }) ∧
      (∀ m ∈ db.messages, m ∉ sub →
        findMsg (markMultipleAsRead db u messageIds cid now).2.2 m.id = some m) ∧
      (∀ c ∈ db.conversations, c.id ≠ cid →
        findConv (markMultipleAsRead db u messageIds cid now).2.2 c.id = some c) ∧
      (∃ latest ∈ sub, (∀ m2 ∈ sub, m2.createdAt ≤ latest.createdAt) ∧
        ∃ convNew,
          findConv (markMultipleAsRead db u messageIds cid now).2.2 cid
            = some convNew ∧
          (convNew.participants.find? (fun p => p.user = u)).map
            Participant.lastReadMessage = some (some latest.id) ∧
          (convNew.unreadCount.find? (fun e => e.user = u)).all
            (fun e => e.count = 0) = true)) := by
  have hisEmpty : messageIds.isEmpty = false := by
    simp [List.isEmpty_iff, hids]
  constructor
  · intro hempty
    rw [markMultipleAsRead]
    simp only [hisEmpty, Bool.false_eq_true, if_false, hconv]
    rw [← hsub]
    simp [hempty]
  · intro hne
    have hsubE : sub.isEmpty = false := by simp [List.isEmpty_iff, hne]
    obtain ⟨latest0, hlatest0⟩ : ∃ x, latestIn sub = some x := by
      cases hl : latestIn sub with
      | none => exact absurd (latestIn_eq_none_iff.mp hl) hne
      | some x => exact ⟨x, rfl⟩
    have hmemids : ∀ m ∈ db.messages, (m ∈ sub ↔ m.id ∈ sub.map (fun m2 => m2.id)) := by
      intro m hm
      constructor
      · intro h; exact List.mem_map_of_mem _ h
      · intro h
        obtain ⟨m2, hm2, hid2⟩ := List.mem_map.mp h
        have hm2db : m2 ∈ db.messages := by
          rw [hsub] at hm2; exact (List.mem_filter.mp hm2).1
        have heq := nodup_key_inj Msg.id hmn hm2db hm hid2
        exact heq ▸ hm2
    have hfilter1 : (db.messages.map (bulkAddRead u now (sub.map (fun m => m.id)))).filter
        (fun m => m.id ∈ sub.map (fun m2 => m2.id))
        = sub.map (bulkAddRead u now (sub.map (fun m => m.id))) := by
      rw [List.filter_map]
      have hcong : db.messages.filter
          ((fun m => decide (m.id ∈ sub.map (fun m2 => m2.id))) ∘
            bulkAddRead u now (sub.map (fun m => m.id)))
          = db.messages.filter (fun m => decide (m.id ∈ sub.map (fun m2 => m2.id))) := by
        apply List.filter_congr
        intro m _
        simp [Function.comp, bulkAddRead_id]
      rw [hcong]
      have hcong2 : db.messages.filter (fun m => decide (m.id ∈ sub.map (fun m2 => m2.id)))
          = db.messages.filter
              (fun m => m.id ∈ messageIds && m.conversation = cid &&
                !readByUser m.readBy u) := by
        apply List.filter_congr
        intro m hm
        by_cases hms : m ∈ sub
        · have h1 : m.id ∈ sub.map (fun m2 => m2.id) := (hmemids m hm).mp hms
          have h2 := (List.mem_filter.mp (hsub ▸ hms)).2
          simp only [h2, decide_eq_true_eq]
          simpa using h1
        · have h1 : m.id ∉ sub.map (fun m2 => m2.id) :=
            fun hc => hms ((hmemids m hm).mpr hc)
          have h2 : ¬((m.id ∈ messageIds && m.conversation = cid &&
              !readByUser m.readBy u) = true) := by
            intro hc
            exact hms (by rw [hsub]; exact List.mem_filter.mpr ⟨hm, hc⟩)
          simp only [(Bool.not_eq_true _).mp h2, decide_eq_false_iff_not]
          simpa using h1
      rw [hcong2, ← hsub]
    have hlat : latestIn
        ((db.messages.map (bulkAddRead u now (sub.map (fun m => m.id)))).filter
          (fun m => m.id ∈ sub.map (fun m2 => m2.id)))
        = some (bulkAddRead u now (sub.map (fun m => m.id)) latest0) := by
      rw [hfilter1, latestIn_map _ (bulkAddRead_createdAt u now _), hlatest0,
        Option.map_some']
    have hres : markMultipleAsRead db u messageIds cid now
        = (200, sub.map (fun m => m.id),
           ⟨db.users,
            db.messages.map (bulkAddRead u now (sub.map (fun m => m.id))),
            (db.conversations.map (setWatermark cid u latest0.id)).map
              (resetUnread cid u)⟩) := by
      rw [markMultipleAsRead]
      simp only [hisEmpty, Bool.false_eq_true, if_false, hconv]
      rw [← hsub]
      simp only [hsubE, Bool.false_eq_true, if_false, hlat, bulkAddRead_id]
    have hcid : conv.id = cid := (findConvWithParticipant_spec hconv).2.1
    have hany : conv.participants.any (fun p => p.user = u) = true :=
      (findConvWithParticipant_spec hconv).2.2
    refine ⟨by rw [hres], by rw [hres], ?_, ?_, ?_, ?_⟩
    · intro m hm hmsub
      rw [hres]
      show (db.messages.map _).find? _ = _
      rw [find?_map_keyed Msg.id m.id _ (bulkAddRead_id u now _) db.messages,
        nodup_find?_self Msg.id hmn hm, Option.map_some']
      have hin : m.id ∈ sub.map (fun m2 => m2.id) := (hmemids m hm).mp hmsub
      have hcond := (List.mem_filter.mp (hsub ▸ hmsub)).2
      simp only [Bool.and_eq_true, Bool.not_eq_true'] at hcond
      simp [bulkAddRead, hin, addToSet_of_not_read now hcond.2]
    · intro m hm hmnot
      rw [hres]
      show (db.messages.map _).find? _ = _
      rw [find?_map_keyed Msg.id m.id _ (bulkAddRead_id u now _) db.messages,
        nodup_find?_self Msg.id hmn hm, Option.map_some']
      have hnin : m.id ∉ sub.map (fun m2 => m2.id) :=
        fun hc => hmnot ((hmemids m hm).mpr hc)
      simp [bulkAddRead, hnin]
    · intro c hc hcne
      rw [hres]
      show ((db.conversations.map _).map _).find? _ = _
      rw [find?_map_keyed Conv.id c.id _ (resetUnread_id cid u) _,
        find?_map_keyed Conv.id c.id _ (setWatermark_id cid u latest0.id) db.conversations,
        nodup_find?_self Conv.id hcn hc]
      simp [setWatermark, resetUnread, hcne]
    · refine ⟨latest0, latestIn_mem hlatest0, latestIn_maximal hlatest0, ?_⟩
      have hfc : findConv db cid = some conv :=
        findConv_of_findConvWithParticipant hcn hconv
      have hsw : setWatermark cid u latest0.id conv
          = { conv with participants := setFirstLastRead conv.participants u latest0.id } := by
        rw [setWatermark, if_pos]
        simp [hcid, hany]
      refine ⟨resetUnread cid u (setWatermark cid u latest0.id conv), ?_, ?_, ?_⟩
      · rw [hres]
        show ((db.conversations.map _).map _).find? _ = _
        rw [find?_map_keyed Conv.id cid _ (resetUnread_id cid u) _,
          find?_map_keyed Conv.id cid _ (setWatermark_id cid u latest0.id) db.conversations]
        rw [findConv] at hfc
        rw [hfc]
        rfl
      · rw [resetUnread_participants, hsw]
        show ((setFirstLastRead conv.participants u latest0.id).find? _).map _ = _
        rw [setFirstLastRead_find?]
        have hsome : (conv.participants.find? (fun p => p.user = u)).isSome := by
          rw [List.find?_isSome]
          obtain ⟨p0, hp0, hp0u⟩ := List.any_eq_true.mp hany
          exact ⟨p0, hp0, hp0u⟩
        obtain ⟨p0, hp0⟩ := Option.isSome_iff_exists.mp hsome
        rw [hp0]
        rfl
      · by_cases hanyu : conv.unreadCount.any (fun e => e.user = u) = true
        · have hru : resetUnread cid u (setWatermark cid u latest0.id conv)
              = { setWatermark cid u latest0.id conv with
                  unreadCount := setFirstUnreadZero conv.unreadCount u } := by
            rw [resetUnread, if_pos]
            · rw [setWatermark_unreadCount]
            · simp [setWatermark_id, setWatermark_unreadCount, hcid, hanyu]
          rw [hru]
          show ((setFirstUnreadZero conv.unreadCount u).find? _).all _ = true
          rw [setFirstUnreadZero_find?]
          cases hf : conv.unreadCount.find? (fun e => e.user = u) with
          | none => rfl
          | some e => simp
        · have hru : resetUnread cid u (setWatermark cid u latest0.id conv)
              = setWatermark cid u latest0.id conv := by
            rw [resetUnread, if_neg]
            simp [setWatermark_unreadCount, hanyu]
          rw [hru, setWatermark_unreadCount]
          have hfn : conv.unreadCount.find? (fun e => e.user = u) = none := by
            rw [List.find?_eq_none]
            intro e he
            have hfalse := (Bool.not_eq_true _).mp hanyu
            exact List.any_eq_false.mp hfalse e he
          rw [hfn]
          rfl

/-- **C5, witness**: a concrete batch call by user 6 over ids
[10, 11, 12]: message 10 is the only one in conversation 1 not already
read by 6 (11 is already read, 12 is in another conversation). -/
theorem markMultipleAsRead_spec_witness :
    (([⟨10, 1, 5, "text", {}, [⟨5, 0⟩], false, none, none, 3⟩] : List Msg) = [] → markMultipleAsRead (⟨[5, 6], [⟨10, 1, 5, "text", {}, [⟨5, 0⟩], false, none, none, 3⟩, ⟨11, 1, 5, "text", {}, [⟨5, 0⟩, ⟨6, 1⟩], false, none, none, 1⟩, ⟨12, 2, 5, "text", {}, [⟨5, 0⟩], false, none, none, 9⟩], [⟨1, "direct", none, [⟨5, "owner", none⟩, ⟨6, "member", none⟩], [], [⟨5, 0⟩, ⟨6, 2⟩], some 10, false⟩, ⟨2, "group", some "g", [⟨5, "owner", none⟩], [⟨5⟩], [⟨5, 0⟩], some 12, false⟩]⟩ : DB) 6 [10, 11, 12] 1 4 = (200, [], (⟨[5, 6], [⟨10, 1, 5, "text", {}, [⟨5, 0⟩], false, none, none, 3⟩, ⟨11, 1, 5, "text", {}, [⟨5, 0⟩, ⟨6, 1⟩], false, none, none, 1⟩, ⟨12, 2, 5, "text", {}, [⟨5, 0⟩], false, none, none, 9⟩], [⟨1, "direct", none, [⟨5, "owner", none⟩, ⟨6, "member", none⟩], [], [⟨5, 0⟩, ⟨6, 2⟩], some 10, false⟩, ⟨2, "group", some "g", [⟨5, "owner", none⟩], [⟨5⟩], [⟨5, 0⟩], some 12, false⟩]⟩ : DB))) ∧
    (([⟨10, 1, 5, "text", {}, [⟨5, 0⟩], false, none, none, 3⟩] : List Msg) ≠ [] →
      (markMultipleAsRead (⟨[5, 6], [⟨10, 1, 5, "text", {}, [⟨5, 0⟩], false, none, none, 3⟩, ⟨11, 1, 5, "text", {}, [⟨5, 0⟩, ⟨6, 1⟩], false, none, none, 1⟩, ⟨12, 2, 5, "text", {}, [⟨5, 0⟩], false, none, none, 9⟩], [⟨1, "direct", none, [⟨5, "owner", none⟩, ⟨6, "member", none⟩], [], [⟨5, 0⟩, ⟨6, 2⟩], some 10, false⟩, ⟨2, "group", some "g", [⟨5, "owner", none⟩], [⟨5⟩], [⟨5, 0⟩], some 12, false⟩]⟩ : DB) 6 [10, 11, 12] 1 4).1 = 200 ∧
      (markMultipleAsRead (⟨[5, 6], [⟨10, 1, 5, "text", {}, [⟨5, 0⟩], false, none, none, 3⟩, ⟨11, 1, 5, "text", {}, [⟨5, 0⟩, ⟨6, 1⟩], false, none, none, 1⟩, ⟨12, 2, 5, "text", {}, [⟨5, 0⟩], false, none, none, 9⟩], [⟨1, "direct", none, [⟨5, "owner", none⟩, ⟨6, "member", none⟩], [], [⟨5, 0⟩, ⟨6, 2⟩], some 10, false⟩, ⟨2, "group", some "g", [⟨5, "owner", none⟩], [⟨5⟩], [⟨5, 0⟩], some 12, false⟩]⟩ : DB) 6 [10, 11, 12] 1 4).2.1 = ([⟨10, 1, 5, "text", {}, [⟨5, 0⟩], false, none, none, 3⟩] : List Msg).map (fun m => m.id) ∧
      (∀ m ∈ (⟨[5, 6], [⟨10, 1, 5, "text", {}, [⟨5, 0⟩], false, none, none, 3⟩, ⟨11, 1, 5, "text", {}, [⟨5, 0⟩, ⟨6, 1⟩], false, none, none, 1⟩, ⟨12, 2, 5, "text", {}, [⟨5, 0⟩], false, none, none, 9⟩], [⟨1, "direct", none, [⟨5, "owner", none⟩, ⟨6, "member", none⟩], [], [⟨5, 0⟩, ⟨6, 2⟩], some 10, false⟩, ⟨2, "group", some "g", [⟨5, "owner", none⟩], [⟨5⟩], [⟨5, 0⟩], some 12, false⟩]⟩ : DB).messages, m ∈ ([⟨10, 1, 5, "text", {}, [⟨5, 0⟩], false, none, none, 3⟩] : List Msg) →
        findMsg (markMultipleAsRead (⟨[5, 6], [⟨10, 1, 5, "text", {}, [⟨5, 0⟩], false, none, none, 3⟩, ⟨11, 1, 5, "text", {}, [⟨5, 0⟩, ⟨6, 1⟩], false, none, none, 1⟩, ⟨12, 2, 5, "text", {}, [⟨5, 0⟩], false, none, none, 9⟩], [⟨1, "direct", none, [⟨5, "owner", none⟩, ⟨6, "member", none⟩], [], [⟨5, 0⟩, ⟨6, 2⟩], some 10, false⟩, ⟨2, "group", some "g", [⟨5, "owner", none⟩], [⟨5⟩], [⟨5, 0⟩], some 12, false⟩]⟩ : DB) 6 [10, 11, 12] 1 4).2.2 m.id
          = some { m with readBy := m.readBy ++ [⟨6, 4⟩] }) ∧
      (∀ m ∈ (⟨[5, 6], [⟨10, 1, 5, "text", {}, [⟨5, 0⟩], false, none, none, 3⟩, ⟨11, 1, 5, "text", {}, [⟨5, 0⟩, ⟨6, 1⟩], false, none, none, 1⟩, ⟨12, 2, 5, "text", {}, [⟨5, 0⟩], false, none, none, 9⟩], [⟨1, "direct", none, [⟨5, "owner", none⟩, ⟨6, "member", none⟩], [], [⟨5, 0⟩, ⟨6, 2⟩], some 10, false⟩, ⟨2, "group", some "g", [⟨5, "owner", none⟩], [⟨5⟩], [⟨5, 0⟩], some 12, false⟩]⟩ : DB).messages, m ∉ ([⟨10, 1, 5, "text", {}, [⟨5, 0⟩], false, none, none, 3⟩] : List Msg) →
        findMsg (markMultipleAsRead (⟨[5, 6], [⟨10, 1, 5, "text", {}, [⟨5, 0⟩], false, none, none, 3⟩, ⟨11, 1, 5, "text", {}, [⟨5, 0⟩, ⟨6, 1⟩], false, none, none, 1⟩, ⟨12, 2, 5, "text", {}, [⟨5, 0⟩], false, none, none, 9⟩], [⟨1, "direct", none, [⟨5, "owner", none⟩, ⟨6, "member", none⟩], [], [⟨5, 0⟩, ⟨6, 2⟩], some 10, false⟩, ⟨2, "group", some "g", [⟨5, "owner", none⟩], [⟨5⟩], [⟨5, 0⟩], some 12, false⟩]⟩ : DB) 6 [10, 11, 12] 1 4).2.2 m.id = some m) ∧
      (∀ c ∈ (⟨[5, 6], [⟨10, 1, 5, "text", {}, [⟨5, 0⟩], false, none, none, 3⟩, ⟨11, 1, 5, "text", {}, [⟨5, 0⟩, ⟨6, 1⟩], false, none, none, 1⟩, ⟨12, 2, 5, "text", {}, [⟨5, 0⟩], false, none, none, 9⟩], [⟨1, "direct", none, [⟨5, "owner", none⟩, ⟨6, "member", none⟩], [], [⟨5, 0⟩, ⟨6, 2⟩], some 10, false⟩, ⟨2, "group", some "g", [⟨5, "owner", none⟩], [⟨5⟩], [⟨5, 0⟩], some 12, false⟩]⟩ : DB).conversations, c.id ≠ 1 →
        findConv (markMultipleAsRead (⟨[5, 6], [⟨10, 1, 5, "text", {}, [⟨5, 0⟩], false, none, none, 3⟩, ⟨11, 1, 5, "text", {}, [⟨5, 0⟩, ⟨6, 1⟩], false, none, none, 1⟩, ⟨12, 2, 5, "text", {}, [⟨5, 0⟩], false, none, none, 9⟩], [⟨1, "direct", none, [⟨5, "owner", none⟩, ⟨6, "member", none⟩], [], [⟨5, 0⟩, ⟨6, 2⟩], some 10, false⟩, ⟨2, "group", some "g", [⟨5, "owner", none⟩], [⟨5⟩], [⟨5, 0⟩], some 12, false⟩]⟩ : DB) 6 [10, 11, 12] 1 4).2.2 c.id = some c) ∧
      (∃ latest ∈ ([⟨10, 1, 5, "text", {}, [⟨5, 0⟩], false, none, none, 3⟩] : List Msg), (∀ m2 ∈ ([⟨10, 1, 5, "text", {}, [⟨5, 0⟩], false, none, none, 3⟩] : List Msg), m2.createdAt ≤ latest.createdAt) ∧
        ∃ convNew,
          findConv (markMultipleAsRead (⟨[5, 6], [⟨10, 1, 5, "text", {}, [⟨5, 0⟩], false, none, none, 3⟩, ⟨11, 1, 5, "text", {}, [⟨5, 0⟩, ⟨6, 1⟩], false, none, none, 1⟩, ⟨12, 2, 5, "text", {}, [⟨5, 0⟩], false, none, none, 9⟩], [⟨1, "direct", none, [⟨5, "owner", none⟩, ⟨6, "member", none⟩], [], [⟨5, 0⟩, ⟨6, 2⟩], some 10, false⟩, ⟨2, "group", some "g", [⟨5, "owner", none⟩], [⟨5⟩], [⟨5, 0⟩], some 12, false⟩]⟩ : DB) 6 [10, 11, 12] 1 4).2.2 1 = some convNew ∧
          (convNew.participants.find? (fun p => p.user = 6)).map
            Participant.lastReadMessage = some (some latest.id) ∧
          (convNew.unreadCount.find? (fun e => e.user = 6)).all
            (fun e => e.count = 0) = true)) :=
  markMultipleAsRead_spec (⟨[5, 6], [⟨10, 1, 5, "text", {}, [⟨5, 0⟩], false, none, none, 3⟩, ⟨11, 1, 5, "text", {}, [⟨5, 0⟩, ⟨6, 1⟩], false, none, none, 1⟩, ⟨12, 2, 5, "text", {}, [⟨5, 0⟩], false, none, none, 9⟩], [⟨1, "direct", none, [⟨5, "owner", none⟩, ⟨6, "member", none⟩], [], [⟨5, 0⟩, ⟨6, 2⟩], some 10, false⟩, ⟨2, "group", some "g", [⟨5, "owner", none⟩], [⟨5⟩], [⟨5, 0⟩], some 12, false⟩]⟩ : DB) 6 [10, 11, 12] 1 4
    ⟨1, "direct", none, [⟨5, "owner", none⟩, ⟨6, "member", none⟩], [], [⟨5, 0⟩, ⟨6, 2⟩], some 10, false⟩
    [⟨10, 1, 5, "text", {}, [⟨5, 0⟩], false, none, none, 3⟩]
    (by decide) (by decide) (by decide) (by decide) (by decide)

end ChatServer
